import Mathlib

/-!
# Scrolling platformer: the frame loop of `Project2/Project2/main.cpp`

A shallow embedding of the simulation part of `main.cpp` (the body of the
`while (!WindowShouldClose())` loop up to, and including, the one statement of
the drawing section that changes the simulation state) and the properties the
specification states about it.

Modelling decisions.

* `float` quantities are exact rationals (`ℚ`): every comparison and every
  arithmetic operation of the source is kept, rounding and NaN are not
  modelled.  `fminf` is `min`.  The one property that depends on rounding, the
  duration of a dash, is stated about `frameR toF32`, the frame with the two
  dash timers in the arithmetic of `float` (IEEE 754 binary32, `toF32`).
* `int jumpCount` is an `Int`; it is only ever incremented below `maxJumps`,
  so no overflow can occur.
* The members of `Player` that carry a default initialiser and are assigned by
  no statement of the program (`maxJumps`, `dashSpeed`, `dashTime`,
  `dashCooldown`) are constants.
* `rand()` is a stream of natural numbers together with the number of calls
  made so far (`Rng`).
* Keyboard state and the frame time are the per-frame `Input`.
* The camera, the sound and the draw calls do not feed back into the
  simulation and are left out.
-/

namespace Platformer

/-! ## Data model -/

/-- The `Vector2` of raylib. -/
structure Vector2 where
  x : ℚ
  y : ℚ
deriving DecidableEq

/-- The `Rectangle` of raylib: origin (top left corner), width and height. -/
structure Rectangle where
  x : ℚ
  y : ℚ
  width : ℚ
  height : ℚ
deriving DecidableEq

/-- The `Color` of raylib: four bytes. -/
structure Color where
  r : Nat
  g : Nat
  b : Nat
  a : Nat
deriving DecidableEq

/-- The colour `GRAY` of raylib. -/
def GRAY : Color := ⟨130, 130, 130, 255⟩

/-- The colour `WHITE` of raylib. -/
def WHITE : Color := ⟨255, 255, 255, 255⟩

/-- The cap on the number of live particles (`#define MAX_PARTICLES 100`). -/
def MAX_PARTICLES : Nat := 100

/-- The mutable members of `struct Player`. -/
structure Player where
  position : Vector2
  velocity : Vector2
  speed : ℚ
  jumpCount : Int
  isDashing : Bool
  dashTimer : ℚ
  dashCooldownTimer : ℚ
  isAlive : Bool
deriving DecidableEq

/-- The member `const int maxJumps = 2`. -/
def Player.maxJumps : Int := 2

/-- The member `float dashSpeed = 15.0f`. -/
def Player.dashSpeed : ℚ := 15

/-- The member `float dashTime = 0.2f`. -/
def Player.dashTime : ℚ := 1 / 5

/-- The member `float dashCooldown = 1.0f`. -/
def Player.dashCooldown : ℚ := 1

/-- The `struct Platform`. -/
structure Platform where
  rect : Rectangle
  color : Color
  velocity : Vector2
  startPos : Vector2
  moveDistance : ℚ
  isMoving : Bool
deriving DecidableEq

/-- The `struct Flag`. -/
structure Flag where
  position : Vector2
  isReached : Bool
deriving DecidableEq

/-- The `struct Particle`. -/
structure Particle where
  position : Vector2
  velocity : Vector2
  rotation : ℚ
  size : ℚ
  life : ℚ
  color : Color
deriving DecidableEq

/-- The state of `rand()`: the sequence of values it returns and the number of
calls made so far. -/
structure Rng where
  draws : Nat → Nat
  next : Nat

/-- One call of `rand()`. -/
def Rng.rand (g : Rng) : Nat × Rng :=
  (g.draws g.next, { g with next := g.next + 1 })

/-- What one frame reads from the outside: `GetFrameTime()` and the keys. -/
structure Input where
  dt : ℚ
  keyZ : Bool
  keyRight : Bool
  keyLeft : Bool
  keySpace : Bool
  keyEnter : Bool
deriving DecidableEq

/-- The variables of `main` that the frame loop reads and writes. -/
structure World where
  player : Player
  platforms : List Platform
  flag : Flag
  particles : List Particle
  rng : Rng

/-- The constant `screenHeight` of `main`. -/
def screenHeight : Int := 450

/-- The constant `gravity` of `main`. -/
def gravity : ℚ := 1 / 2

/-! ## Operations -/

/-- Modelled from the spec: raylib's `CheckCollisionRecs` is not part of the
repository; the spec calls it the standard AABB overlap test, which is strict
on both axes. -/
def CheckCollisionRecs (rec1 rec2 : Rectangle) : Bool :=
  decide (rec1.x < rec2.x + rec2.width) && decide (rec1.x + rec1.width > rec2.x) &&
  decide (rec1.y < rec2.y + rec2.height) && decide (rec1.y + rec1.height > rec2.y)

/-- The function `AddParticle`: a no-op on a full pool, otherwise four calls
of `rand()` and one `push_back`. -/
def AddParticle (particles : List Particle) (g : Rng) (pos : Vector2) (color : Color) :
    List Particle × Rng :=
  if particles.length < MAX_PARTICLES then
    let (r1, g1) := g.rand
    let (r2, g2) := g1.rand
    let (r3, g3) := g2.rand
    let (r4, g4) := g3.rand
    let p : Particle :=
      { position := pos
        velocity := ⟨(((r1 % 41 : Nat) : ℚ) - 20) / 10, (((r2 % 41 : Nat) : ℚ) - 20) / 10⟩
        rotation := ((r3 % 360 : Nat) : ℚ)
        size := ((r4 % 5 + 2 : Nat) : ℚ)
        life := 1
        color := color }
    (particles ++ [p], g4)
  else (particles, g)

/-- The loop `for (int i = 0; i < n; i++) AddParticle(particles, pos, color)`;
the program runs it with `n = 20`. -/
def addParticles : Nat → List Particle → Rng → Vector2 → Color → List Particle × Rng
  | 0, particles, g, _, _ => (particles, g)
  | n + 1, particles, g, pos, color =>
      let s := AddParticle particles g pos color
      addParticles n s.1 s.2 pos color

/-- The function `ResetPlayer`. -/
def ResetPlayer (player : Player) : Player :=
  { player with
    position := ⟨100, 100⟩
    velocity := ⟨0, 0⟩
    speed := 5
    jumpCount := 0
    isDashing := false
    dashTimer := 0
    dashCooldownTimer := 0
    isAlive := true }

/-- The block "Dash logic" (lines 119-126). -/
def dashLogic (dt : ℚ) (player : Player) : Player :=
  let p1 : Player :=
    if player.dashCooldownTimer > 0 then
      { player with dashCooldownTimer := player.dashCooldownTimer - dt }
    else player
  if p1.isDashing then
    let p2 : Player := { p1 with dashTimer := p1.dashTimer - dt }
    if p2.dashTimer ≤ 0 then { p2 with isDashing := false, speed := 5 } else p2
  else p1

/-- The condition of the block "Dash input" (line 129), on the player that
`dashLogic` leaves. -/
def dashFires (keyZ : Bool) (player : Player) : Bool :=
  keyZ && decide (player.dashCooldownTimer ≤ 0)

/-- The block "Dash input" (lines 129-135). -/
def dashInput (keyZ : Bool) (s : Player × List Particle × Rng) : Player × List Particle × Rng :=
  let player := s.1
  if dashFires keyZ player then
    let p1 : Player :=
      { player with
        isDashing := true
        dashTimer := Player.dashTime
        dashCooldownTimer := Player.dashCooldown
        speed := Player.dashSpeed }
    let e := addParticles 20 s.2.1 s.2.2 ⟨p1.position.x + 20, p1.position.y + 20⟩ WHITE
    (p1, e.1, e.2)
  else s

/-- The block "Movement" (lines 138-145). -/
def movement (keyRight keyLeft : Bool) (player : Player) : Player :=
  let step : ℚ := if !player.isDashing then player.speed else Player.dashSpeed
  let p1 : Player :=
    if keyRight then { player with position := ⟨player.position.x + step, player.position.y⟩ }
    else player
  if keyLeft then { p1 with position := ⟨p1.position.x - step, p1.position.y⟩ } else p1

/-- The block "Jumping" (lines 148-157). -/
def jumping (keySpace : Bool) (s : Player × List Particle × Rng) : Player × List Particle × Rng :=
  let player := s.1
  if keySpace then
    if player.jumpCount < Player.maxJumps then
      let p1 : Player :=
        { player with
          velocity := ⟨player.velocity.x, -10⟩
          jumpCount := player.jumpCount + 1 }
      if p1.jumpCount = 2 then
        let e := addParticles 20 s.2.1 s.2.2 ⟨p1.position.x + 20, p1.position.y + 20⟩ WHITE
        (p1, e.1, e.2)
      else (p1, s.2.1, s.2.2)
    else s
  else s

/-- The block "Apply gravity" (lines 160-161). -/
def applyGravity (player : Player) : Player :=
  let vy := player.velocity.y + gravity
  { player with
    velocity := ⟨player.velocity.x, vy⟩
    position := ⟨player.position.x, player.position.y + vy⟩ }

/-- The rectangle `playerRect` of line 164. -/
def playerRectOf (player : Player) : Rectangle :=
  ⟨player.position.x, player.position.y, 40, 40⟩

/-- The four overlaps of lines 170-173. -/
def overlapLeft (playerRect r : Rectangle) : ℚ := playerRect.x + playerRect.width - r.x

/-- The overlap measured from the right edge of the platform. -/
def overlapRight (playerRect r : Rectangle) : ℚ := r.x + r.width - playerRect.x

/-- The overlap measured from the top edge of the platform. -/
def overlapTop (playerRect r : Rectangle) : ℚ := playerRect.y + playerRect.height - r.y

/-- The overlap measured from the bottom edge of the platform. -/
def overlapBottom (playerRect r : Rectangle) : ℚ := r.y + r.height - playerRect.y

/-- The value `minOverlap` of line 176. -/
def minOverlap (playerRect r : Rectangle) : ℚ :=
  min (min (overlapLeft playerRect r) (overlapRight playerRect r))
    (min (overlapTop playerRect r) (overlapBottom playerRect r))

/-- The collision block of the platform loop (lines 168-195) for one platform
rectangle, on the player and the local `onGround`. -/
def resolveCollision (playerRect r : Rectangle) (s : Player × Bool) : Player × Bool :=
  let player := s.1
  if CheckCollisionRecs playerRect r then
    if minOverlap playerRect r = overlapTop playerRect r then
      ({ player with
          position := ⟨player.position.x, r.y - playerRect.height⟩
          velocity := ⟨player.velocity.x, 0⟩
          jumpCount := 0 }, true)
    else if minOverlap playerRect r = overlapBottom playerRect r then
      ({ player with
          position := ⟨player.position.x, r.y + r.height⟩
          velocity := ⟨player.velocity.x, 0⟩ }, s.2)
    else if minOverlap playerRect r = overlapLeft playerRect r then
      ({ player with position := ⟨r.x - playerRect.width, player.position.y⟩ }, s.2)
    else if minOverlap playerRect r = overlapRight playerRect r then
      ({ player with position := ⟨r.x + r.width, player.position.y⟩ }, s.2)
    else s
  else s

/-- The block "Update moving platforms" (lines 198-209) for one platform. -/
def advance (platform : Platform) : Platform :=
  if platform.isMoving then
    let x := platform.rect.x + platform.velocity.x
    let y := platform.rect.y + platform.velocity.y
    let vx :=
      if x > platform.startPos.x + platform.moveDistance ∨
          x < platform.startPos.x - platform.moveDistance then
        platform.velocity.x * -1
      else platform.velocity.x
    let vy :=
      if y > platform.startPos.y + platform.moveDistance ∨
          y < platform.startPos.y - platform.moveDistance then
        platform.velocity.y * -1
      else platform.velocity.y
    { platform with
      rect := { platform.rect with x := x, y := y }
      velocity := ⟨vx, vy⟩ }
  else platform

/-- The loop `for (auto& platform : platforms)` (lines 167-210): for each
platform in list order, the collision block and then the platform's own
advance.  `playerRect` is the rectangle computed before the loop. -/
def platformLoop (playerRect : Rectangle) :
    List Platform → Player × Bool → (Player × Bool) × List Platform
  | [], s => (s, [])
  | platform :: rest, s =>
      let s1 := resolveCollision playerRect platform.rect s
      let out := platformLoop playerRect rest s1
      (out.1, advance platform :: out.2)

/-- The rectangle `flagRect` of line 223. -/
def flagRectOf (flag : Flag) : Rectangle :=
  ⟨flag.position.x, flag.position.y, 40, 80⟩

/-- The conversion `(unsigned char)(life * 255)` of line 234: truncation
towards zero, then the low byte. -/
def alphaOf (life : ℚ) : Nat :=
  let v := life * 255
  let t : Int := if 0 ≤ v then Int.floor v else -Int.floor (-v)
  (t % 256).toNat

/-- The body of the loop "Update particles" (lines 230-235). -/
def updateParticle (dt : ℚ) (p : Particle) : Particle :=
  let life := p.life - dt
  { p with
    position := ⟨p.position.x + p.velocity.x, p.position.y + p.velocity.y⟩
    life := life
    color := { p.color with a := alphaOf life } }

/-- The block "Update particles" with the erase/remove_if of line 236. -/
def updateParticles (dt : ℚ) (particles : List Particle) : List Particle :=
  (particles.map (updateParticle dt)).filter (fun p => !decide (p.life ≤ 0))

/-- The guard of line 117. -/
def World.active (w : World) : Bool :=
  w.player.isAlive && !w.flag.isReached

/-- The player, the pool and `rand()` after the blocks "Dash logic" to "Apply
gravity" (lines 119-161). -/
def prePhysics (inp : Input) (w : World) : Player × List Particle × Rng :=
  let p1 := dashLogic inp.dt w.player
  let s2 := dashInput inp.keyZ (p1, w.particles, w.rng)
  let p3 := movement inp.keyRight inp.keyLeft s2.1
  let s4 := jumping inp.keySpace (p3, s2.2.1, s2.2.2)
  (applyGravity s4.1, s4.2.1, s4.2.2)

/-- The rectangle `playerRect` of the frame. -/
def framePlayerRect (inp : Input) (w : World) : Rectangle :=
  playerRectOf (prePhysics inp w).1

/-- The result of the platform loop of the frame. -/
def frameLoop (inp : Input) (w : World) : (Player × Bool) × List Platform :=
  platformLoop (framePlayerRect inp w) w.platforms ((prePhysics inp w).1, false)

/-- The condition of the fall-out check (line 218) in the frame. -/
def fellOut (inp : Input) (w : World) : Bool :=
  decide ((frameLoop inp w).1.1.position.y > ((screenHeight + 100 : Int) : ℚ))

/-- The body of `if (player.isAlive && !flag.isReached)` (lines 118-226). -/
def activeStep (inp : Input) (w : World) : World :=
  let s := prePhysics inp w
  let playerRect := playerRectOf s.1
  let out := platformLoop playerRect w.platforms (s.1, false)
  let p5 := out.1.1
  let p6 := if p5.position.y > ((screenHeight + 100 : Int) : ℚ) then ResetPlayer p5 else p5
  let flag : Flag :=
    if CheckCollisionRecs playerRect (flagRectOf w.flag) then { w.flag with isReached := true }
    else w.flag
  { player := p6, platforms := out.2, flag := flag, particles := s.2.1, rng := s.2.2 }

/-- One iteration of the main loop (lines 115-277): the guarded simulation
step, the particle update, and the respawn on ENTER of the dead-player branch
of the drawing section. -/
def frame (inp : Input) (w : World) : World :=
  let w1 := if w.active then activeStep inp w else w
  let w2 : World := { w1 with particles := updateParticles inp.dt w1.particles }
  if w2.player.isAlive then w2
  else if inp.keyEnter then { w2 with player := ResetPlayer w2.player } else w2

/-- The frames of a run, oldest input first. -/
def run : List Input → World → World
  | [], w => w
  | inp :: rest, w => run rest (frame inp w)

/-- The platform list of `main` (lines 99-105). -/
def levelPlatforms : List Platform :=
  [ ⟨⟨0, 400, 800, 20⟩, GRAY, ⟨0, 0⟩, ⟨0, 200⟩, 0, false⟩,
    ⟨⟨200, 300, 200, 20⟩, GRAY, ⟨2, 0⟩, ⟨200, 300⟩, 100, true⟩,
    ⟨⟨500, 200, 150, 20⟩, GRAY, ⟨0, 2⟩, ⟨500, 200⟩, 100, true⟩,
    ⟨⟨800, 300, 200, 20⟩, GRAY, ⟨0, 0⟩, ⟨800, 300⟩, 0, false⟩,
    ⟨⟨1200, 200, 150, 20⟩, GRAY, ⟨0, 0⟩, ⟨1200, 200⟩, 0, false⟩ ]

/-- The state of `main` when the loop is entered: the player after
`ResetPlayer`, the level, the flag and an empty pool. -/
def initWorld (draws : Nat → Nat) : World :=
  { player := ResetPlayer ⟨⟨0, 0⟩, ⟨0, 0⟩, 0, 0, false, 0, 0, true⟩
    platforms := levelPlatforms
    flag := ⟨⟨1400, 150⟩, false⟩
    particles := []
    rng := ⟨draws, 0⟩ }

/-- The second platform of the level (line 101), which moves along x. -/
def movingPlatformX : Platform :=
  ⟨⟨200, 300, 200, 20⟩, GRAY, ⟨2, 0⟩, ⟨200, 300⟩, 100, true⟩

/-- The level with a given player, an untouched flag and an empty pool. -/
def levelWorld (player : Player) : World :=
  { player := player
    platforms := levelPlatforms
    flag := ⟨⟨1400, 150⟩, false⟩
    particles := []
    rng := ⟨fun _ => 0, 0⟩ }

/-- The dash fields of a player, with `isAlive`. -/
def Player.dash (p : Player) : Bool × ℚ × ℚ × ℚ × Bool :=
  (p.isDashing, p.dashTimer, p.dashCooldownTimer, p.speed, p.isAlive)

/-- A frame triggers a dash: it is active and the dash-input condition holds
after the dash-logic block. -/
def dashTriggered (inp : Input) (w : World) : Bool :=
  w.active && dashFires inp.keyZ (dashLogic inp.dt w.player)

/-- Every frame of the run is active (player alive, flag not yet reached when
the frame starts), has a non-negative frame time and does not respawn the
player through the fall-out check. -/
def steadyRun : List Input → World → Bool
  | [], _ => true
  | inp :: rest, w =>
      w.active && decide (0 ≤ inp.dt) && !fellOut inp w && steadyRun rest (frame inp w)

/-- The accumulated frame time of a run. -/
def elapsed (inputs : List Input) : ℚ := (inputs.map Input.dt).sum

/-- The player after the two dash blocks of a frame. -/
def afterDash (inp : Input) (w : World) : Player :=
  (dashInput inp.keyZ (dashLogic inp.dt w.player, w.particles, w.rng)).1

/-- The dash fields of a player `S` seconds of accumulated frame time after a
dash was triggered: dashing at dash speed while `S < dashTime`, back at base
speed from `dashTime` until the cooldown has run out. -/
def DashClock (S : ℚ) (p : Player) : Prop :=
  (S < Player.dashTime →
    p.isDashing = true ∧ p.speed = Player.dashSpeed ∧ p.dashTimer = Player.dashTime - S ∧
      p.dashCooldownTimer = Player.dashCooldown - S) ∧
  (Player.dashTime ≤ S → S < Player.dashCooldown →
    p.isDashing = false ∧ p.speed = 5 ∧ p.dashCooldownTimer = Player.dashCooldown - S)

/-- A player at rest on the ground platform. -/
def restingPlayer : Player := ⟨⟨100, 360⟩, ⟨0, 0⟩, 5, 0, false, 0, 0, true⟩

/-- A frame of a tenth of a second with only the dash key pressed. -/
def dashKey : Input := ⟨1 / 10, true, false, false, false, false⟩

/-- A frame of a tenth of a second with no key. -/
def idle : Input := ⟨1 / 10, false, false, false, false, false⟩

/-- A particle, to fill sample pools. -/
def sampleParticle : Particle := ⟨⟨0, 0⟩, ⟨1, 1⟩, 0, 2, 1, WHITE⟩

/-- A player standing inside the flag rectangle. -/
def playerAtFlag : Player := ⟨⟨1400, 160⟩, ⟨0, 0⟩, 5, 0, false, 0, 0, true⟩

/-- The origin and the velocity of every platform of a state, in list order:
(rect.x, rect.y, velocity.x, velocity.y). -/
def motionOf (w : World) : List (ℚ × ℚ × ℚ × ℚ) :=
  w.platforms.map (fun p => (p.rect.x, p.rect.y, p.velocity.x, p.velocity.y))

/-- The spawn state that `ResetPlayer` writes. -/
def spawnPlayer : Player := ⟨⟨100, 100⟩, ⟨0, 0⟩, 5, 0, false, 0, 0, true⟩

/-- The state before the particle update of a frame: the guarded step of line
117, or the unchanged state when the guard fails. -/
def guardedStep (inp : Input) (w : World) : World :=
  if w.active then activeStep inp w else w

/-- A player in free fall below the ground platform. -/
def fallingPlayer : Player := ⟨⟨-100, 545⟩, ⟨3, 12⟩, 15, 2, true, 1 / 10, 9 / 10, true⟩

/-- The first phase of the order the spec describes ("collision against all
platforms resolved"): the collision block for every platform in list order,
all against the rectangles the platforms have before any of them moves. -/
def specResolveAll (playerRect : Rectangle) (platforms : List Platform) (s : Player × Bool) :
    Player × Bool :=
  platforms.foldl (fun acc platform => resolveCollision playerRect platform.rect acc) s

/-- The second phase of the order the spec describes ("platforms advance"):
every platform advanced once. -/
def specAdvanceAll (platforms : List Platform) : List Platform :=
  platforms.map advance

/-- The order the spec describes: resolve against all platforms, then advance
all platforms. -/
def specResolveThenAdvance (playerRect : Rectangle) (platforms : List Platform)
    (s : Player × Bool) : (Player × Bool) × List Platform :=
  (specResolveAll playerRect platforms s, specAdvanceAll platforms)

/-- The dash invariant at the end of a frame: dashing at dash speed with a
positive dash timer, or not dashing at base speed. -/
def DashExclusive (p : Player) : Prop :=
  (p.isDashing = true ∧ p.speed = Player.dashSpeed ∧ 0 < p.dashTimer) ∨
  (p.isDashing = false ∧ p.speed = 5)

/-- Some platform of the state is resolved through the top side by the
platform loop of the frame: it overlaps the frame's player rectangle and its
top overlap is the minimum. -/
def landsOnTop (inp : Input) (w : World) : Prop :=
  ∃ platform ∈ w.platforms,
    CheckCollisionRecs (framePlayerRect inp w) platform.rect = true ∧
    minOverlap (framePlayerRect inp w) platform.rect =
      overlapTop (framePlayerRect inp w) platform.rect

/-- The pool after the update-and-prune steps of a run of frames. -/
def agedParticles (inputs : List Input) (particles : List Particle) : List Particle :=
  inputs.foldl (fun ps inp => updateParticles inp.dt ps) particles

/-- A world whose flag is already reached, with two particles in the pool. -/
def wonWorld : World :=
  { player := ⟨⟨1400, 160⟩, ⟨0, 3⟩, 15, 1, true, 1 / 10, 9 / 10, true⟩
    platforms := levelPlatforms
    flag := ⟨⟨1400, 150⟩, true⟩
    particles := [sampleParticle, { sampleParticle with life := 1 / 20 }]
    rng := ⟨fun _ => 0, 8⟩ }

/-- A frame of a tenth of a second with every key pressed. -/
def allKeys : Input := ⟨1 / 10, true, true, true, true, true⟩

/-- The interval `[start - dist, start + dist]` of a moving platform on one
axis. -/
def inBand (start dist x : ℚ) : Prop := start - dist ≤ x ∧ x ≤ start + dist

/-- Membership in the interval is decidable. -/
instance (start dist x : ℚ) : Decidable (inBand start dist x) := by
  unfold inBand
  infer_instance

/-- The origin coordinate `x` with velocity `v` is inside the interval, or one
step brings it inside. -/
def Swing (start dist x v : ℚ) : Prop := inBand start dist x ∨ inBand start dist (x + v)

/-- Two rectangles touch along an edge: a horizontal edge of one lies on a
horizontal edge of the other and their x extents overlap, or the same with
vertical edges and y extents. -/
def touchesEdge (a r : Rectangle) : Prop :=
  ((a.y + a.height = r.y ∨ a.y = r.y + r.height) ∧ a.x < r.x + r.width ∧ a.x + a.width > r.x) ∨
  ((a.x + a.width = r.x ∨ a.x = r.x + r.width) ∧ a.y < r.y + r.height ∧ a.y + a.height > r.y)

/-- The third platform of the level (line 102), which moves along y. -/
def movingPlatformY : Platform :=
  ⟨⟨500, 200, 150, 20⟩, GRAY, ⟨0, 2⟩, ⟨500, 200⟩, 100, true⟩

/-- No key is pressed or held in the frame. -/
def noKey (inp : Input) : Bool :=
  !inp.keyZ && !inp.keyRight && !inp.keyLeft && !inp.keySpace && !inp.keyEnter

/-- A player at rest on top of the level's y-moving platform. -/
def playerOnMovingY : Player := ⟨⟨500, 160⟩, ⟨0, 0⟩, 5, 0, false, 0, 0, true⟩

/-- A player at rest on top of the level's x-moving platform, at its left
end. -/
def playerOnMovingX : Player := ⟨⟨200, 260⟩, ⟨0, 0⟩, 5, 0, false, 0, 0, true⟩

/-! ## The dash timers in the arithmetic of `float` -/

/-- Rounding of a rational to the nearest integer, ties to the even one. -/
def roundEven (y : ℚ) : ℤ :=
  if y - ⌊y⌋ < 1 / 2 then ⌊y⌋
  else if 1 / 2 < y - ⌊y⌋ then ⌊y⌋ + 1
  else if ⌊y⌋ % 2 = 0 then ⌊y⌋ else ⌊y⌋ + 1

/-- The binary exponent of `a` found by counting up from `lo`: the largest `e`
with `lo ≤ e ≤ lo + n` and `2 ^ e ≤ a`, or `lo` when already `a < 2 ^ (lo + 1)`. -/
def exponentFrom (a : ℚ) (lo : ℤ) : ℕ → ℤ
  | 0 => lo
  | n + 1 => if (2 : ℚ) ^ (lo + 1) ≤ a then exponentFrom a (lo + 1) n else lo

/-- The spacing of the binary32 numbers around `x`: 2 ^ (e - 23) with `e` the
binary exponent of `x`, between the smallest normal exponent -126 and the
largest exponent 127. -/
def ulp32 (x : ℚ) : ℚ := (2 : ℚ) ^ (exponentFrom |x| (-126) 253 - 23)

/-- The arithmetic of `float` (IEEE 754 binary32, round to nearest, ties to
even): the binary32 number nearest to the exact result `x`.  Overflow to
infinity (|x| >= 2^128) is left out. -/
def toF32 (x : ℚ) : ℚ := (roundEven (x / ulp32 x) : ℚ) * ulp32 x

/-- The block "Dash logic" (lines 119-126) with the two subtractions of the
frame time carried out in the arithmetic `rnd` of `float`; `dashLogic` is the
case of exact arithmetic. -/
def dashLogicR (rnd : ℚ → ℚ) (dt : ℚ) (player : Player) : Player :=
  let p1 : Player :=
    if player.dashCooldownTimer > 0 then
      { player with dashCooldownTimer := rnd (player.dashCooldownTimer - dt) }
    else player
  if p1.isDashing then
    let p2 : Player := { p1 with dashTimer := rnd (p1.dashTimer - dt) }
    if p2.dashTimer ≤ 0 then { p2 with isDashing := false, speed := 5 } else p2
  else p1

/-- The block "Dash input" (lines 129-135) with the members `dashTime`,
`dashCooldown` and `dashSpeed` holding the `float` nearest to their literals
(`0.2f`, `1.0f`, `15.0f`); `dashInput` is the case of exact arithmetic. -/
def dashInputR (rnd : ℚ → ℚ) (keyZ : Bool) (s : Player × List Particle × Rng) :
    Player × List Particle × Rng :=
  let player := s.1
  if dashFires keyZ player then
    let p1 : Player :=
      { player with
        isDashing := true
        dashTimer := rnd Player.dashTime
        dashCooldownTimer := rnd Player.dashCooldown
        speed := rnd Player.dashSpeed }
    let e := addParticles 20 s.2.1 s.2.2 ⟨p1.position.x + 20, p1.position.y + 20⟩ WHITE
    (p1, e.1, e.2)
  else s

/-- The blocks "Dash logic" to "Apply gravity" (lines 119-161) with the dash
timers in the arithmetic `rnd`. -/
def prePhysicsR (rnd : ℚ → ℚ) (inp : Input) (w : World) : Player × List Particle × Rng :=
  let p1 := dashLogicR rnd inp.dt w.player
  let s2 := dashInputR rnd inp.keyZ (p1, w.particles, w.rng)
  let p3 := movement inp.keyRight inp.keyLeft s2.1
  let s4 := jumping inp.keySpace (p3, s2.2.1, s2.2.2)
  (applyGravity s4.1, s4.2.1, s4.2.2)

/-- The result of the platform loop of the frame, with the dash timers in the
arithmetic `rnd`. -/
def frameLoopR (rnd : ℚ → ℚ) (inp : Input) (w : World) : (Player × Bool) × List Platform :=
  platformLoop (playerRectOf (prePhysicsR rnd inp w).1) w.platforms
    ((prePhysicsR rnd inp w).1, false)

/-- The condition of the fall-out check (line 218) in the frame, with the dash
timers in the arithmetic `rnd`. -/
def fellOutR (rnd : ℚ → ℚ) (inp : Input) (w : World) : Bool :=
  decide ((frameLoopR rnd inp w).1.1.position.y > ((screenHeight + 100 : Int) : ℚ))

/-- The body of `if (player.isAlive && !flag.isReached)` (lines 118-226) with
the dash timers in the arithmetic `rnd`. -/
def activeStepR (rnd : ℚ → ℚ) (inp : Input) (w : World) : World :=
  let s := prePhysicsR rnd inp w
  let playerRect := playerRectOf s.1
  let out := platformLoop playerRect w.platforms (s.1, false)
  let p5 := out.1.1
  let p6 := if p5.position.y > ((screenHeight + 100 : Int) : ℚ) then ResetPlayer p5 else p5
  let flag : Flag :=
    if CheckCollisionRecs playerRect (flagRectOf w.flag) then { w.flag with isReached := true }
    else w.flag
  { player := p6, platforms := out.2, flag := flag, particles := s.2.1, rng := s.2.2 }

/-- One iteration of the main loop with the dash timers in the arithmetic
`rnd`: `frame` with `dashLogicR` and `dashInputR` in the place of `dashLogic`
and `dashInput`. -/
def frameR (rnd : ℚ → ℚ) (inp : Input) (w : World) : World :=
  let w1 := if w.active then activeStepR rnd inp w else w
  let w2 : World := { w1 with particles := updateParticles inp.dt w1.particles }
  if w2.player.isAlive then w2
  else if inp.keyEnter then { w2 with player := ResetPlayer w2.player } else w2

/-- The frames of a run with the dash timers in the arithmetic `rnd`, oldest
input first. -/
def runR (rnd : ℚ → ℚ) : List Input → World → World
  | [], w => w
  | inp :: rest, w => runR rnd rest (frameR rnd inp w)

/-- A frame triggers a dash, with the dash timers in the arithmetic `rnd`. -/
def dashTriggeredR (rnd : ℚ → ℚ) (inp : Input) (w : World) : Bool :=
  w.active && dashFires inp.keyZ (dashLogicR rnd inp.dt w.player)

/-- Every frame of the run is active (player alive, flag not yet reached when
the frame starts), has a non-negative frame time and does not respawn the
player through the fall-out check; dash timers in the arithmetic `rnd`. -/
def steadyRunR (rnd : ℚ → ℚ) : List Input → World → Bool
  | [], _ => true
  | inp :: rest, w =>
      w.active && decide (0 ≤ inp.dt) && !fellOutR rnd inp w &&
        steadyRunR rnd rest (frameR rnd inp w)

/-- The player after the two dash blocks of a frame, with the dash timers in
the arithmetic `rnd`. -/
def afterDashR (rnd : ℚ → ℚ) (inp : Input) (w : World) : Player :=
  (dashInputR rnd inp.keyZ (dashLogicR rnd inp.dt w.player, w.particles, w.rng)).1

/-- The value of the member `dashTime`: the `float` nearest to 0.2. -/
def dashTime32 : ℚ := toF32 Player.dashTime

/-- The frame time `float(1.0 / 60)` of the program's 60 frames a second. -/
def dt60 : ℚ := 8947849 / 536870912

/-- The frame time `float(1.0 / 25)`. -/
def dt25 : ℚ := 5368709 / 134217728

/-- The lower half of the dash clock in `float` arithmetic, `j` frames and `S`
seconds of accumulated frame time after a trigger: the dash is on and its timer
is at most `j` roundings of `2 ^ (-27)` below `dashTime - S`. -/
def DashLower (j : ℕ) (S : ℚ) (p : Player) : Prop :=
  p.isDashing = true ∧ p.speed = 15 ∧
    dashTime32 - S - j * (1 / 134217728) ≤ p.dashTimer ∧ p.dashTimer ≤ 1 / 4

/-- The upper half of the dash clock in `float` arithmetic: the cooldown timer
is at most `j` roundings of `2 ^ (-25)` below `dashCooldown - S`, and the dash
is either on with a timer at most `j` roundings of `2 ^ (-27)` above
`dashTime - S`, or over at base speed. -/
def DashUpper (j : ℕ) (S : ℚ) (p : Player) : Prop :=
  1 - S - j * (1 / 33554432) ≤ p.dashCooldownTimer ∧ p.dashCooldownTimer ≤ 1 ∧
    ((p.isDashing = true ∧ p.speed = 15 ∧ 0 < p.dashTimer ∧
        p.dashTimer ≤ dashTime32 - S + j * (1 / 134217728) ∧ p.dashTimer ≤ 1 / 4) ∨
      (p.isDashing = false ∧ p.speed = 5))

/-- A frame of `float(1.0 / 60)` seconds with no key. -/
def idle60 : Input := ⟨dt60, false, false, false, false, false⟩

/-- A frame of `float(1.0 / 60)` seconds with only the dash key pressed. -/
def dashKey60 : Input := ⟨dt60, true, false, false, false, false⟩

/-- A frame of `float(1.0 / 25)` seconds with no key. -/
def idle25 : Input := ⟨dt25, false, false, false, false, false⟩

/-- A frame of `float(1.0 / 25)` seconds with only the dash key pressed. -/
def dashKey25 : Input := ⟨dt25, true, false, false, false, false⟩

/-! ## Platform motion -/

/-- The platform loop advances every platform exactly once, whatever the
player does. -/
theorem platformLoop_platforms (pr : Rectangle) (ps : List Platform) (s : Player × Bool) :
    (platformLoop pr ps s).2 = ps.map advance := by
  induction ps generalizing s with
  | nil => rfl
  | cons p rest ih => simp [platformLoop, ih]

/-- In an active frame every platform is advanced exactly once. -/
theorem frame_platforms_of_active (inp : Input) (w : World) (h : w.active = true) :
    (frame inp w).platforms = w.platforms.map advance := by
  unfold frame
  simp only [h, if_true]
  split_ifs <;> simp [activeStep, platformLoop_platforms]

/-- In a frame that is not active no platform moves. -/
theorem frame_platforms_of_inactive (inp : Input) (w : World) (h : w.active = false) :
    (frame inp w).platforms = w.platforms := by
  unfold frame
  rw [h]
  simp only [Bool.false_eq_true, if_false]
  split_ifs <;> rfl

/-- The first fifty advances of the level's x-moving platform: two units to
the right each, the velocity unchanged. -/
theorem advance_movingPlatformX_iterate (k : Nat) (hk : k ≤ 50) :
    advance^[k] movingPlatformX =
      ⟨⟨200 + 2 * (k : ℚ), 300, 200, 20⟩, GRAY, ⟨2, 0⟩, ⟨200, 300⟩, 100, true⟩ := by
  induction k with
  | zero => simp [movingPlatformX]
  | succ n ih =>
    have hn : (n : ℚ) + 1 ≤ 50 := by exact_mod_cast hk
    rw [Function.iterate_succ_apply', ih (by omega)]
    have h1 : ¬ ((200 : ℚ) + 2 * n + 2 > 200 + 100 ∨ (200 : ℚ) + 2 * n + 2 < 200 - 100) := by
      have : (0 : ℚ) ≤ n := Nat.cast_nonneg n
      rintro (h | h) <;> linarith
    simp only [advance, if_true, h1, if_false]
    norm_num
    ring

/-- C1 (evaluation of the code at the failing input): the level's x-moving
platform (start 200, moveDistance 100, velocity 2) is a platform of the level;
after 50 advances its origin is exactly on the bound 300 and the velocity has
not changed sign; after 51 advances the origin is at 302, outside
[start - moveDistance, start + moveDistance], and only then is the velocity
reversed.  The same is read off the program's run from its initial state with
no key pressed, after 50 and after 51 frames, for the x-moving and for the
y-moving platform. -/
theorem movingPlatformX_overshoots :
    movingPlatformX ∈ levelPlatforms ∧
    movingPlatformX.startPos.x + movingPlatformX.moveDistance = 300 ∧
    (advance^[50] movingPlatformX).rect.x = 300 ∧
    (advance^[50] movingPlatformX).velocity.x = 2 ∧
    (advance^[51] movingPlatformX).rect.x = 302 ∧
    (advance^[51] movingPlatformX).velocity.x = -2 ∧
    motionOf (run (List.replicate 50 idle) (initWorld (fun _ => 0))) =
      [(0, 400, 0, 0), (300, 300, 2, 0), (500, 300, 0, 2), (800, 300, 0, 0),
        (1200, 200, 0, 0)] ∧
    motionOf (run (List.replicate 51 idle) (initWorld (fun _ => 0))) =
      [(0, 400, 0, 0), (302, 300, -2, 0), (500, 302, 0, -2), (800, 300, 0, 0),
        (1200, 200, 0, 0)] := by
  have h50 := advance_movingPlatformX_iterate 50 (le_refl _)
  have h51 : advance^[51] movingPlatformX = advance (advance^[50] movingPlatformX) :=
    Function.iterate_succ_apply' advance 50 movingPlatformX
  rw [h51, h50]
  refine ⟨by simp [levelPlatforms, movingPlatformX], ?_, ?_, ?_, ?_, ?_, by decide!, by decide!⟩ <;>
    norm_num [advance, movingPlatformX]

/-! ## Collision resolution -/

/-- C2: the collision block for one platform, with the player rectangle
40x40 at (x, y).  Without overlap nothing changes.  With overlap exactly one of
the four sides is selected, the one with the smallest overlap, ties going to
top, then bottom, then left, then right; top sets position.y to r.y - 40,
velocity.y to 0, jumpCount to 0 (and the local onGround); bottom sets
position.y to r.y + r.height and velocity.y to 0; left sets position.x to
r.x - 40; right sets position.x to r.x + r.width; nothing else changes. -/
theorem resolveCollision_min_overlap_side (x y : ℚ) (r : Rectangle) (player : Player)
    (onGround : Bool) :
    let pr : Rectangle := ⟨x, y, 40, 40⟩
    let oL := overlapLeft pr r
    let oR := overlapRight pr r
    let oT := overlapTop pr r
    let oB := overlapBottom pr r
    (CheckCollisionRecs pr r = false →
      resolveCollision pr r (player, onGround) = (player, onGround)) ∧
    ((oT ≤ oB ∧ oT ≤ oL ∧ oT ≤ oR) ∨ (oB < oT ∧ oB ≤ oL ∧ oB ≤ oR) ∨
      (oL < oT ∧ oL < oB ∧ oL ≤ oR) ∨ (oR < oT ∧ oR < oB ∧ oR < oL)) ∧
    (CheckCollisionRecs pr r = true →
      (oT ≤ oB ∧ oT ≤ oL ∧ oT ≤ oR →
        resolveCollision pr r (player, onGround) =
          ({ player with
              position := ⟨player.position.x, r.y - 40⟩
              velocity := ⟨player.velocity.x, 0⟩
              jumpCount := 0 }, true)) ∧
      (oB < oT ∧ oB ≤ oL ∧ oB ≤ oR →
        resolveCollision pr r (player, onGround) =
          ({ player with
              position := ⟨player.position.x, r.y + r.height⟩
              velocity := ⟨player.velocity.x, 0⟩ }, onGround)) ∧
      (oL < oT ∧ oL < oB ∧ oL ≤ oR →
        resolveCollision pr r (player, onGround) =
          ({ player with position := ⟨r.x - 40, player.position.y⟩ }, onGround)) ∧
      (oR < oT ∧ oR < oB ∧ oR < oL →
        resolveCollision pr r (player, onGround) =
          ({ player with position := ⟨r.x + r.width, player.position.y⟩ }, onGround))) := by
  intro pr oL oR oT oB
  refine ⟨fun h => by simp [resolveCollision, h], ?_, fun h => ⟨?_, ?_, ?_, ?_⟩⟩
  · rcases le_or_lt oT oB with h1 | h1 <;> rcases le_or_lt oT oL with h2 | h2 <;>
      rcases le_or_lt oT oR with h3 | h3 <;> rcases le_or_lt oB oL with h4 | h4 <;>
      rcases le_or_lt oB oR with h5 | h5 <;> rcases le_or_lt oL oR with h6 | h6 <;>
      first
        | exact Or.inl ⟨h1, h2, h3⟩
        | exact Or.inr (Or.inl ⟨h1, h4, h5⟩)
        | exact Or.inr (Or.inr (Or.inl ⟨h2, by linarith, h6⟩))
        | exact Or.inr (Or.inr (Or.inl ⟨h2, h4, h6⟩))
        | exact Or.inr (Or.inr (Or.inr ⟨h3, h5, h6⟩))
        | exact Or.inr (Or.inr (Or.inr ⟨h3, by linarith, h6⟩))
        | (exfalso; linarith)
  · rintro ⟨h1, h2, h3⟩
    have hm : minOverlap pr r = overlapTop pr r := by
      unfold minOverlap
      rw [min_eq_left h1, min_eq_right (le_min h2 h3)]
    simp [resolveCollision, h, hm, pr]
  · rintro ⟨h1, h2, h3⟩
    have hm : minOverlap pr r = overlapBottom pr r := by
      unfold minOverlap
      rw [min_eq_right h1.le, min_eq_right (le_min h2 h3)]
    have hne : ¬ overlapBottom pr r = overlapTop pr r := ne_of_lt h1
    simp [resolveCollision, h, hm, hne]
  · rintro ⟨h1, h2, h3⟩
    have hm : minOverlap pr r = overlapLeft pr r := by
      unfold minOverlap
      rw [min_eq_left h3, min_eq_left (le_min h1.le h2.le)]
    have hne1 : ¬ overlapLeft pr r = overlapTop pr r := ne_of_lt h1
    have hne2 : ¬ overlapLeft pr r = overlapBottom pr r := ne_of_lt h2
    simp [resolveCollision, h, hm, hne1, hne2, pr]
  · rintro ⟨h1, h2, h3⟩
    have hm : minOverlap pr r = overlapRight pr r := by
      unfold minOverlap
      rw [min_eq_right h3.le, min_eq_left (le_min h1.le h2.le)]
    have hne1 : ¬ overlapRight pr r = overlapTop pr r := ne_of_lt h1
    have hne2 : ¬ overlapRight pr r = overlapBottom pr r := ne_of_lt h2
    have hne3 : ¬ overlapRight pr r = overlapLeft pr r := ne_of_lt h3
    simp [resolveCollision, h, hm, hne1, hne2, hne3]


/-- C2, at a concrete input: a player rectangle at (100, 365) sinks 5 units
into the ground platform and is resolved through the top side. -/
theorem resolveCollision_min_overlap_side_witness :
    CheckCollisionRecs ⟨100, 365, 40, 40⟩ ⟨0, 400, 800, 20⟩ = true ∧
    resolveCollision ⟨100, 365, 40, 40⟩ ⟨0, 400, 800, 20⟩
        (⟨⟨100, 365⟩, ⟨0, 8⟩, 5, 1, false, 0, 0, true⟩, false) =
      (⟨⟨100, 360⟩, ⟨0, 0⟩, 5, 0, false, 0, 0, true⟩, true) := by
  have hc : CheckCollisionRecs ⟨100, 365, 40, 40⟩ ⟨0, 400, 800, 20⟩ = true := by decide!
  refine ⟨hc, ?_⟩
  have h := ((resolveCollision_min_overlap_side 100 365 ⟨0, 400, 800, 20⟩
    ⟨⟨100, 365⟩, ⟨0, 8⟩, 5, 1, false, 0, 0, true⟩ false).2.2 hc).1
    (by norm_num [overlapTop, overlapBottom, overlapLeft, overlapRight])
  rw [h]
  norm_num

/-! ## Jump count -/

/-- The jump count across one block of the frame. -/
theorem dashLogic_jumpCount (dt : ℚ) (p : Player) : (dashLogic dt p).jumpCount = p.jumpCount := by
  unfold dashLogic
  dsimp only
  split_ifs <;> rfl

/-- The jump count across one block of the frame. -/
theorem dashInput_jumpCount (k : Bool) (s : Player × List Particle × Rng) :
    (dashInput k s).1.jumpCount = s.1.jumpCount := by
  unfold dashInput
  dsimp only
  split_ifs <;> rfl

/-- The jump count across one block of the frame. -/
theorem movement_jumpCount (kr kl : Bool) (p : Player) :
    (movement kr kl p).jumpCount = p.jumpCount := by
  unfold movement
  dsimp only
  split_ifs <;> rfl

/-- The jump count across one block of the frame. -/
theorem jumping_jumpCount (k : Bool) (s : Player × List Particle × Rng) :
    (jumping k s).1.jumpCount =
      if k = true ∧ s.1.jumpCount < Player.maxJumps then s.1.jumpCount + 1 else s.1.jumpCount := by
  unfold jumping
  dsimp only
  by_cases hk : k = true
  · by_cases hj : s.1.jumpCount < Player.maxJumps
    · simp only [hk, hj, if_true, and_self]
      split_ifs <;> rfl
    · simp [hk, hj]
  · simp [hk]

/-- The jump count across one block of the frame. -/
theorem applyGravity_jumpCount (p : Player) : (applyGravity p).jumpCount = p.jumpCount := rfl

/-- The jump count after the input and gravity blocks of a frame. -/
theorem prePhysics_jumpCount (inp : Input) (w : World) :
    (prePhysics inp w).1.jumpCount =
      if inp.keySpace = true ∧ w.player.jumpCount < Player.maxJumps then w.player.jumpCount + 1
      else w.player.jumpCount := by
  simp only [prePhysics, applyGravity_jumpCount, jumping_jumpCount, movement_jumpCount,
    dashInput_jumpCount, dashLogic_jumpCount]

/-- The collision block either resets the jump count or leaves it. -/
theorem resolveCollision_jumpCount (pr r : Rectangle) (s : Player × Bool) :
    (resolveCollision pr r s).1.jumpCount = 0 ∨
      (resolveCollision pr r s).1.jumpCount = s.1.jumpCount := by
  unfold resolveCollision
  dsimp only
  split_ifs <;> first | exact Or.inl rfl | exact Or.inr rfl

/-- The platform loop either resets the jump count or leaves it. -/
theorem platformLoop_jumpCount (pr : Rectangle) (ps : List Platform) (s : Player × Bool) :
    (platformLoop pr ps s).1.1.jumpCount = 0 ∨
      (platformLoop pr ps s).1.1.jumpCount = s.1.jumpCount := by
  induction ps generalizing s with
  | nil => exact Or.inr rfl
  | cons p rest ih =>
    simp only [platformLoop]
    rcases ih (resolveCollision pr p.rect s) with h | h
    · exact Or.inl h
    · rcases resolveCollision_jumpCount pr p.rect s with h2 | h2
      · exact Or.inl (h.trans h2)
      · exact Or.inr (h.trans h2)

/-- The jump count at the end of an active step: 0 or the one after the
jumping block. -/
theorem activeStep_jumpCount (inp : Input) (w : World) :
    (activeStep inp w).player.jumpCount = 0 ∨
      (activeStep inp w).player.jumpCount = (prePhysics inp w).1.jumpCount := by
  simp only [activeStep]
  split_ifs
  · exact Or.inl rfl
  · exact platformLoop_jumpCount _ _ _

/-- The jump count at the end of a frame, against the one at the end of the
guarded step. -/
theorem frame_jumpCount (inp : Input) (w : World) :
    (frame inp w).player.jumpCount = 0 ∨
      (frame inp w).player.jumpCount =
        (if w.active then activeStep inp w else w).player.jumpCount := by
  unfold frame
  simp only []
  split_ifs <;> first | exact Or.inl rfl | exact Or.inr rfl

/-- One frame keeps the jump count within 0..maxJumps. -/
theorem frame_jumpCount_bounds (inp : Input) (w : World)
    (h : 0 ≤ w.player.jumpCount ∧ w.player.jumpCount ≤ Player.maxJumps) :
    0 ≤ (frame inp w).player.jumpCount ∧ (frame inp w).player.jumpCount ≤ Player.maxJumps := by
  have hm : Player.maxJumps = 2 := rfl
  rcases frame_jumpCount inp w with h0 | h1
  · rw [h0, hm]; omega
  · rw [h1]
    by_cases ha : w.active = true
    · simp only [ha, if_true]
      rcases activeStep_jumpCount inp w with h2 | h2
      · rw [h2, hm]; omega
      · rw [h2, prePhysics_jumpCount]
        split_ifs with h3
        · rw [hm] at h3 ⊢; omega
        · exact h
    · simp only [ha]
      exact h

/-- Every run keeps the jump count within 0..maxJumps. -/
theorem run_jumpCount_bounds (inputs : List Input) (w : World)
    (h : 0 ≤ w.player.jumpCount ∧ w.player.jumpCount ≤ Player.maxJumps) :
    0 ≤ (run inputs w).player.jumpCount ∧ (run inputs w).player.jumpCount ≤ Player.maxJumps := by
  induction inputs generalizing w with
  | nil => exact h
  | cons inp rest ih => exact ih _ (frame_jumpCount_bounds inp w h)

/-- C3: in every state reachable from the initial state by any sequence of
frames, with any keys and any frame times, 0 <= jumpCount <= maxJumps = 2. -/
theorem jumpCount_within_maxJumps (draws : Nat → Nat) (inputs : List Input) :
    0 ≤ (run inputs (initWorld draws)).player.jumpCount ∧
    (run inputs (initWorld draws)).player.jumpCount ≤ Player.maxJumps ∧
    Player.maxJumps = 2 := by
  have h := run_jumpCount_bounds inputs (initWorld draws)
    (by simp [initWorld, ResetPlayer, Player.maxJumps])
  exact ⟨h.1, h.2, rfl⟩

/-- Top-side resolution sets the jump count to 0. -/
theorem resolveCollision_top_jumpCount (pr r : Rectangle) (s : Player × Bool)
    (hc : CheckCollisionRecs pr r = true) (ht : minOverlap pr r = overlapTop pr r) :
    (resolveCollision pr r s).1.jumpCount = 0 := by
  simp [resolveCollision, hc, ht]

/-- The platform loop never raises a jump count of 0. -/
theorem platformLoop_jumpCount_zero (pr : Rectangle) (ps : List Platform) (s : Player × Bool)
    (h : s.1.jumpCount = 0) : (platformLoop pr ps s).1.1.jumpCount = 0 := by
  rcases platformLoop_jumpCount pr ps s with h1 | h1
  · exact h1
  · exact h1.trans h

/-- A platform loop with a top-side resolution ends with jump count 0. -/
theorem platformLoop_top_jumpCount (pr : Rectangle) (ps : List Platform) (s : Player × Bool)
    (h : ∃ platform ∈ ps, CheckCollisionRecs pr platform.rect = true ∧
      minOverlap pr platform.rect = overlapTop pr platform.rect) :
    (platformLoop pr ps s).1.1.jumpCount = 0 := by
  induction ps generalizing s with
  | nil => simp at h
  | cons p rest ih =>
    simp only [platformLoop]
    obtain ⟨q, hq, hc, ht⟩ := h
    rcases List.mem_cons.mp hq with rfl | hmem
    · exact platformLoop_jumpCount_zero pr rest _ (resolveCollision_top_jumpCount pr q.rect s hc ht)
    · exact ih _ ⟨q, hmem, hc, ht⟩

/-- The local `onGround` after the collision block. -/
theorem resolveCollision_onGround (pr r : Rectangle) (s : Player × Bool) :
    (resolveCollision pr r s).2 = true ↔
      s.2 = true ∨ (CheckCollisionRecs pr r = true ∧ minOverlap pr r = overlapTop pr r) := by
  unfold resolveCollision
  dsimp only
  split_ifs <;> simp_all

/-- The local `onGround` of the platform loop is true at the end exactly when
some platform was resolved through the top side. -/
theorem platformLoop_onGround (pr : Rectangle) (ps : List Platform) (s : Player × Bool) :
    (platformLoop pr ps s).1.2 = true ↔
      s.2 = true ∨ ∃ platform ∈ ps, CheckCollisionRecs pr platform.rect = true ∧
        minOverlap pr platform.rect = overlapTop pr platform.rect := by
  induction ps generalizing s with
  | nil => simp [platformLoop]
  | cons p rest ih =>
    simp only [platformLoop, ih, resolveCollision_onGround, List.mem_cons, exists_eq_or_imp]
    tauto

/-- C4: in an active frame in which the collision loop resolves some platform
through the top side (the platform overlaps the frame's player rectangle and
its top overlap is the minimum), jumpCount is 0 at the end of the frame,
whatever it was before and whatever the keys. -/
theorem top_resolution_resets_jumpCount (inp : Input) (w : World)
    (hactive : w.active = true)
    (htop : ∃ platform ∈ w.platforms,
      CheckCollisionRecs (framePlayerRect inp w) platform.rect = true ∧
      minOverlap (framePlayerRect inp w) platform.rect =
        overlapTop (framePlayerRect inp w) platform.rect) :
    (frame inp w).player.jumpCount = 0 := by
  rcases frame_jumpCount inp w with h0 | h1
  · exact h0
  · rw [h1]
    simp only [hactive, if_true, activeStep]
    split_ifs
    · rfl
    · exact platformLoop_top_jumpCount _ _ _ htop

/-- C4, at a concrete input: the player, 11 units into the ground with one
jump used, presses jump; the frame counts the second jump, lands through the
top side and ends with jumpCount 0. -/
theorem top_resolution_resets_jumpCount_witness :
    (levelWorld ⟨⟨100, 371⟩, ⟨0, 0⟩, 5, 1, false, 0, 0, true⟩).player.jumpCount = 1 ∧
    (frame ⟨1 / 60, false, false, false, true, false⟩
      (levelWorld ⟨⟨100, 371⟩, ⟨0, 0⟩, 5, 1, false, 0, 0, true⟩)).player.jumpCount = 0 :=
  ⟨rfl, top_resolution_resets_jumpCount ⟨1 / 60, false, false, false, true, false⟩
    (levelWorld ⟨⟨100, 371⟩, ⟨0, 0⟩, 5, 1, false, 0, 0, true⟩) rfl
    ⟨⟨⟨0, 400, 800, 20⟩, GRAY, ⟨0, 0⟩, ⟨0, 200⟩, 0, false⟩,
      by simp [levelWorld, levelPlatforms], by decide!, by decide!⟩⟩

/-! ## Dash -/

/-- The movement block leaves the dash fields. -/
theorem movement_dash (kr kl : Bool) (p : Player) : (movement kr kl p).dash = p.dash := by
  unfold movement
  dsimp only
  split_ifs <;> rfl

/-- The jumping block leaves the dash fields. -/
theorem jumping_dash (k : Bool) (s : Player × List Particle × Rng) :
    (jumping k s).1.dash = s.1.dash := by
  unfold jumping
  dsimp only
  split_ifs <;> rfl

/-- Gravity leaves the dash fields. -/
theorem applyGravity_dash (p : Player) : (applyGravity p).dash = p.dash := rfl

/-- The collision block leaves the dash fields. -/
theorem resolveCollision_dash (pr r : Rectangle) (s : Player × Bool) :
    (resolveCollision pr r s).1.dash = s.1.dash := by
  unfold resolveCollision
  dsimp only
  split_ifs <;> rfl

/-- The platform loop leaves the dash fields. -/
theorem platformLoop_dash (pr : Rectangle) (ps : List Platform) (s : Player × Bool) :
    (platformLoop pr ps s).1.1.dash = s.1.dash := by
  induction ps generalizing s with
  | nil => rfl
  | cons p rest ih =>
    simp only [platformLoop]
    rw [ih, resolveCollision_dash]

/-- The dash-logic block leaves `isAlive`. -/
theorem dashLogic_isAlive (dt : ℚ) (p : Player) : (dashLogic dt p).isAlive = p.isAlive := by
  unfold dashLogic
  dsimp only
  split_ifs <;> rfl

/-- The dash-input block leaves `isAlive`. -/
theorem dashInput_isAlive (k : Bool) (s : Player × List Particle × Rng) :
    (dashInput k s).1.isAlive = s.1.isAlive := by
  unfold dashInput
  dsimp only
  split_ifs <;> rfl

/-- In an active frame without fall-out the dash fields at the end of the frame
are those the two dash blocks leave. -/
theorem frame_dash_of_steady (inp : Input) (w : World) (ha : w.active = true)
    (hf : fellOut inp w = false) :
    (frame inp w).player.dash = (afterDash inp w).dash := by
  have hp : (prePhysics inp w).1.dash = (afterDash inp w).dash := by
    simp only [prePhysics, afterDash, applyGravity_dash, jumping_dash, movement_dash]
  have hl : (frameLoop inp w).1.1.dash = (afterDash inp w).dash := by
    rw [frameLoop, platformLoop_dash, hp]
  have hs : (activeStep inp w).player = (frameLoop inp w).1.1 := by
    have hf2 : ¬ (frameLoop inp w).1.1.position.y > ((screenHeight + 100 : Int) : ℚ) := by
      simpa [fellOut] using hf
    simp only [frameLoop, framePlayerRect] at hf2
    simp only [activeStep, frameLoop, framePlayerRect]
    rw [if_neg hf2]
  have halive : (activeStep inp w).player.isAlive = true := by
    have h1 : (activeStep inp w).player.dash.2.2.2.2 = (afterDash inp w).dash.2.2.2.2 := by
      rw [hs, hl]
    have h2 : w.player.isAlive = true := by
      simp only [World.active, Bool.and_eq_true] at ha
      exact ha.1
    simpa [Player.dash, afterDash, dashInput_isAlive, dashLogic_isAlive, h2] using h1
  unfold frame
  dsimp only
  rw [if_pos ha, if_pos halive]
  show (activeStep inp w).player.dash = _
  rw [hs, hl]

/-- The state right after a trigger is on the dash clock at time 0. -/
theorem afterDash_of_triggered (inp : Input) (w : World) (h : dashTriggered inp w = true) :
    DashClock 0 (afterDash inp w) := by
  have hf : dashFires inp.keyZ (dashLogic inp.dt w.player) = true := by
    simp only [dashTriggered, Bool.and_eq_true] at h
    exact h.2
  constructor
  · intro _
    simp [afterDash, dashInput, hf]
  · intro h1
    norm_num [Player.dashTime] at h1

/-- The dash-logic block while a dash goes on. -/
theorem dashLogic_of_dashing (dt : ℚ) (p : Player) (hcd : p.dashCooldownTimer > 0)
    (hd : p.isDashing = true) (ht : ¬ (p.dashTimer - dt ≤ 0)) :
    dashLogic dt p =
      { p with dashCooldownTimer := p.dashCooldownTimer - dt, dashTimer := p.dashTimer - dt } := by
  unfold dashLogic
  dsimp only
  rw [if_pos hcd]
  dsimp only
  rw [if_pos hd, if_neg ht]

/-- The dash-logic block in the frame that ends a dash. -/
theorem dashLogic_of_dash_end (dt : ℚ) (p : Player) (hcd : p.dashCooldownTimer > 0)
    (hd : p.isDashing = true) (ht : p.dashTimer - dt ≤ 0) :
    dashLogic dt p =
      { p with
        dashCooldownTimer := p.dashCooldownTimer - dt
        dashTimer := p.dashTimer - dt
        isDashing := false
        speed := 5 } := by
  unfold dashLogic
  dsimp only
  rw [if_pos hcd]
  dsimp only
  rw [if_pos hd, if_pos ht]

/-- The dash-logic block while no dash goes on and the cooldown runs. -/
theorem dashLogic_of_cooling (dt : ℚ) (p : Player) (hcd : p.dashCooldownTimer > 0)
    (hd : p.isDashing = false) :
    dashLogic dt p = { p with dashCooldownTimer := p.dashCooldownTimer - dt } := by
  unfold dashLogic
  dsimp only
  rw [if_pos hcd]
  dsimp only
  rw [if_neg (by simp [hd])]

/-- The dash-input block does nothing while the cooldown is positive. -/
theorem dashInput_of_cooling (k : Bool) (s : Player × List Particle × Rng)
    (h : 0 < s.1.dashCooldownTimer) : dashInput k s = s := by
  have hf : dashFires k s.1 = false := by
    simp [dashFires, not_le.mpr h]
  simp [dashInput, hf]

/-- The two dash blocks move the dash clock by the frame time. -/
theorem afterDash_clock (inp : Input) (w : World) (S : ℚ) (hdt : 0 ≤ inp.dt)
    (h : DashClock S w.player) : DashClock (S + inp.dt) (afterDash inp w) := by
  obtain ⟨hA, hB⟩ := h
  have hT : Player.dashTime = 1 / 5 := rfl
  have hC : Player.dashCooldown = 1 := rfl
  rcases lt_or_le S Player.dashTime with hS | hS
  · obtain ⟨h1, h2, h3, h4⟩ := hA hS
    have hcd : w.player.dashCooldownTimer > 0 := by rw [h4, hC]; rw [hT] at hS; linarith
    constructor
    · intro hS2
      have ht : ¬ (w.player.dashTimer - inp.dt ≤ 0) := by
        rw [h3]; linarith
      have hl := dashLogic_of_dashing inp.dt w.player hcd h1 ht
      have hpos : 0 < (dashLogic inp.dt w.player, w.particles, w.rng).1.dashCooldownTimer := by
        rw [hl]; show 0 < w.player.dashCooldownTimer - inp.dt
        rw [h4, hC]; rw [hT] at hS2; linarith
      rw [afterDash, dashInput_of_cooling _ _ hpos, hl]
      refine ⟨h1, h2, ?_, ?_⟩
      · show w.player.dashTimer - inp.dt = _
        rw [h3]; ring
      · show w.player.dashCooldownTimer - inp.dt = _
        rw [h4]; ring
    · intro hS2 hS3
      have ht : w.player.dashTimer - inp.dt ≤ 0 := by
        rw [h3]; linarith
      have hl := dashLogic_of_dash_end inp.dt w.player hcd h1 ht
      have hpos : 0 < (dashLogic inp.dt w.player, w.particles, w.rng).1.dashCooldownTimer := by
        rw [hl]; show 0 < w.player.dashCooldownTimer - inp.dt
        rw [h4]; linarith
      rw [afterDash, dashInput_of_cooling _ _ hpos, hl]
      refine ⟨rfl, rfl, ?_⟩
      show w.player.dashCooldownTimer - inp.dt = _
      rw [h4]; ring
  · constructor
    · intro hS2
      exact absurd hS2 (by linarith)
    · intro _ hS3
      obtain ⟨h1, h2, h4⟩ := hB hS (by linarith)
      have hcd : w.player.dashCooldownTimer > 0 := by rw [h4]; linarith
      have hl := dashLogic_of_cooling inp.dt w.player hcd h1
      have hpos : 0 < (dashLogic inp.dt w.player, w.particles, w.rng).1.dashCooldownTimer := by
        rw [hl]; show 0 < w.player.dashCooldownTimer - inp.dt
        rw [h4]; linarith
      rw [afterDash, dashInput_of_cooling _ _ hpos, hl]
      refine ⟨h1, h2, ?_⟩
      show w.player.dashCooldownTimer - inp.dt = _
      rw [h4]; ring

/-- Only the dash fields matter to the dash clock. -/
theorem DashClock_congr (S : ℚ) (p q : Player) (h : p.dash = q.dash) (hq : DashClock S q) :
    DashClock S p := by
  simp only [Player.dash, Prod.mk.injEq] at h
  obtain ⟨h1, h2, h3, h4, _⟩ := h
  simpa [DashClock, h1, h2, h3, h4] using hq

/-- A steady run moves the dash clock by its accumulated frame time. -/
theorem run_clock (inputs : List Input) (w : World) (S : ℚ)
    (hrun : steadyRun inputs w = true) (h : DashClock S w.player) :
    DashClock (S + elapsed inputs) (run inputs w).player := by
  induction inputs generalizing w S with
  | nil => simpa [elapsed, run] using h
  | cons inp rest ih =>
    simp only [steadyRun, Bool.and_eq_true, decide_eq_true_eq, Bool.not_eq_true'] at hrun
    obtain ⟨⟨⟨ha, hdt⟩, hf⟩, hrest⟩ := hrun
    have h1 : DashClock (S + inp.dt) (frame inp w).player :=
      DashClock_congr _ _ _ (frame_dash_of_steady inp w ha hf) (afterDash_clock inp w S hdt h)
    have h2 := ih (frame inp w) (S + inp.dt) hrest h1
    have he : S + elapsed (inp :: rest) = S + inp.dt + elapsed rest := by
      simp [elapsed]; ring
    rw [he]
    exact h2

/-- The duration of a dash with the timers in exact arithmetic (`frame`, no
rounding): after a frame that triggers a dash (and does not respawn), along any
run of active frames with non-negative frame times and no respawn, the player
is dashing at speed dashSpeed = 15 as long as the accumulated frame time is
below dashTime = 1/5, and is not dashing, at base speed 5, once the accumulated
frame time has reached dashTime (and the cooldown of 1.0, which gates the next
dash, has not yet elapsed).  The timers of the program are `float`s; what
their rounding leaves of this is the subject of the last section. -/
theorem dash_lasts_dashTime_exact (inp0 : Input) (w : World) (inputs : List Input)
    (htrig : dashTriggered inp0 w = true) (hno : fellOut inp0 w = false)
    (hrun : steadyRun inputs (frame inp0 w) = true) :
    (elapsed inputs < Player.dashTime →
      (run inputs (frame inp0 w)).player.isDashing = true ∧
      (run inputs (frame inp0 w)).player.speed = Player.dashSpeed) ∧
    (Player.dashTime ≤ elapsed inputs → elapsed inputs < Player.dashCooldown →
      (run inputs (frame inp0 w)).player.isDashing = false ∧
      (run inputs (frame inp0 w)).player.speed = 5) ∧
    Player.dashSpeed = 15 ∧ Player.dashTime = 1 / 5 := by
  have ha : w.active = true := by
    simp only [dashTriggered, Bool.and_eq_true] at htrig
    exact htrig.1
  have h0 : DashClock 0 (frame inp0 w).player :=
    DashClock_congr _ _ _ (frame_dash_of_steady inp0 w ha hno) (afterDash_of_triggered inp0 w htrig)
  have h := run_clock inputs (frame inp0 w) 0 hrun h0
  rw [zero_add] at h
  refine ⟨fun h1 => ?_, fun h1 h2 => ?_, rfl, rfl⟩
  · obtain ⟨a, b, _, _⟩ := h.1 h1
    exact ⟨a, b⟩
  · obtain ⟨a, b, _⟩ := h.2 h1 h2
    exact ⟨a, b⟩

/-- The duration of a dash in exact arithmetic, at a concrete input: the
resting player dashes; two frames of 1/10 s (together dashTime) later the dash
is over. -/
theorem dash_lasts_dashTime_exact_witness :
    dashTriggered dashKey (levelWorld restingPlayer) = true ∧
    elapsed [idle, idle] = Player.dashTime ∧
    (run [idle, idle] (frame dashKey (levelWorld restingPlayer))).player.isDashing = false ∧
    (run [idle, idle] (frame dashKey (levelWorld restingPlayer))).player.speed = 5 := by
  have h1 : dashTriggered dashKey (levelWorld restingPlayer) = true := by decide!
  have h2 : fellOut dashKey (levelWorld restingPlayer) = false := by decide!
  have h3 : steadyRun [idle, idle] (frame dashKey (levelWorld restingPlayer)) = true := by
    decide!
  have he : elapsed [idle, idle] = Player.dashTime := by decide!
  have h := (dash_lasts_dashTime_exact dashKey (levelWorld restingPlayer) [idle, idle] h1 h2 h3).2.1
    (le_of_eq he.symm) (by rw [he]; decide!)
  exact ⟨h1, he, h.1, h.2⟩

/-! ## Dash cooldown -/

/-- With a positive cooldown after the dash-logic block the blocks up to
gravity do not read the dash key. -/
theorem prePhysics_of_cooling (inp : Input) (w : World) (k : Bool)
    (h : 0 < (dashLogic inp.dt w.player).dashCooldownTimer) :
    prePhysics { inp with keyZ := k } w = prePhysics inp w := by
  have h1 := dashInput_of_cooling k (dashLogic inp.dt w.player, w.particles, w.rng) h
  have h2 := dashInput_of_cooling inp.keyZ (dashLogic inp.dt w.player, w.particles, w.rng) h
  simp only [prePhysics, h1, h2]

/-- The cooldown timer after the dash-logic block of a frame that starts with
a positive cooldown. -/
theorem dashLogic_cooldown (dt : ℚ) (p : Player) (h : 0 < p.dashCooldownTimer) :
    (dashLogic dt p).dashCooldownTimer = p.dashCooldownTimer - dt := by
  unfold dashLogic
  dsimp only
  rw [if_pos h]
  dsimp only
  split_ifs <;> rfl

/-- C6: in an active frame whose dashCooldownTimer is positive and still
positive after the frame's decrement by dt, the dash key has no effect: the
whole state after the frame (player, platforms, flag, particle pool, rand) is
the same with the key pressed and with it released. -/
theorem dash_key_ignored_while_cooling (inp : Input) (w : World)
    (hactive : w.active = true)
    (hpos : 0 < w.player.dashCooldownTimer)
    (hstill : 0 < w.player.dashCooldownTimer - inp.dt) :
    frame { inp with keyZ := true } w = frame { inp with keyZ := false } w := by
  have hc : 0 < (dashLogic inp.dt w.player).dashCooldownTimer := by
    rw [dashLogic_cooldown inp.dt w.player hpos]
    exact hstill
  have h1 := prePhysics_of_cooling inp w true hc
  have h2 := prePhysics_of_cooling inp w false hc
  have hs : activeStep { inp with keyZ := true } w = activeStep { inp with keyZ := false } w := by
    simp only [activeStep, h1, h2]
  simp only [frame, hactive, if_true, hs]

/-- C6, at a concrete input: one frame after a dash (cooldown 1.0, then 0.9)
the dash key changes nothing, and the running dash goes on (dashTimer 0.1). -/
theorem dash_key_ignored_while_cooling_witness :
    0 < (frame dashKey (levelWorld restingPlayer)).player.dashCooldownTimer - idle.dt ∧
    frame { idle with keyZ := true } (frame dashKey (levelWorld restingPlayer)) =
      frame { idle with keyZ := false } (frame dashKey (levelWorld restingPlayer)) ∧
    (frame { idle with keyZ := true } (frame dashKey (levelWorld restingPlayer))).player.dashTimer
      = 1 / 10 :=
  ⟨by decide!,
    dash_key_ignored_while_cooling idle (frame dashKey (levelWorld restingPlayer))
      (by decide!) (by decide!) (by decide!),
    by decide!⟩

/-! ## Particle pool -/

/-- What `AddParticle` does on a pool below the cap. -/
theorem AddParticle_of_lt (ps : List Particle) (g : Rng) (pos : Vector2) (c : Color)
    (h : ps.length < MAX_PARTICLES) :
    ∃ p : Particle, (AddParticle ps g pos c).1 = ps ++ [p] ∧ p.life = 1 ∧ p.position = pos ∧
      p.color = c := by
  unfold AddParticle
  rw [if_pos h]
  exact ⟨_, rfl, rfl, rfl, rfl⟩

/-- What `AddParticle` does on a pool at the cap. -/
theorem AddParticle_of_ge (ps : List Particle) (g : Rng) (pos : Vector2) (c : Color)
    (h : MAX_PARTICLES ≤ ps.length) : AddParticle ps g pos c = (ps, g) := by
  unfold AddParticle
  rw [if_neg (by omega)]

/-- One call leaves `min (n + 1) 100` particles. -/
theorem AddParticle_length (ps : List Particle) (g : Rng) (pos : Vector2) (c : Color) :
    (AddParticle ps g pos c).1.length =
      if ps.length < MAX_PARTICLES then ps.length + 1 else ps.length := by
  unfold AddParticle
  split_ifs <;> simp

/-- A call never takes the pool above the cap. -/
theorem AddParticle_length_le (ps : List Particle) (g : Rng) (pos : Vector2) (c : Color)
    (h : ps.length ≤ MAX_PARTICLES) : (AddParticle ps g pos c).1.length ≤ MAX_PARTICLES := by
  rw [AddParticle_length]
  split_ifs <;> omega

/-- The emission loop never takes the pool above the cap. -/
theorem addParticles_length_le (n : Nat) (ps : List Particle) (g : Rng) (pos : Vector2)
    (c : Color) (h : ps.length ≤ MAX_PARTICLES) :
    (addParticles n ps g pos c).1.length ≤ MAX_PARTICLES := by
  induction n generalizing ps g with
  | zero => exact h
  | succ k ih =>
    simp only [addParticles]
    exact ih _ _ (AddParticle_length_le ps g pos c h)

/-- The update never lengthens the pool. -/
theorem updateParticles_length_le (dt : ℚ) (ps : List Particle) :
    (updateParticles dt ps).length ≤ ps.length := by
  unfold updateParticles
  exact (List.length_filter_le _ _).trans (by simp)

/-- The dash-input block keeps the pool within the cap. -/
theorem dashInput_particles_le (k : Bool) (s : Player × List Particle × Rng)
    (h : s.2.1.length ≤ MAX_PARTICLES) : (dashInput k s).2.1.length ≤ MAX_PARTICLES := by
  unfold dashInput
  dsimp only
  split_ifs
  · dsimp only
    exact addParticles_length_le 20 s.2.1 s.2.2 _ WHITE h
  · exact h

/-- The jumping block keeps the pool within the cap. -/
theorem jumping_particles_le (k : Bool) (s : Player × List Particle × Rng)
    (h : s.2.1.length ≤ MAX_PARTICLES) : (jumping k s).2.1.length ≤ MAX_PARTICLES := by
  unfold jumping
  dsimp only
  split_ifs
  · dsimp only
    exact addParticles_length_le 20 s.2.1 s.2.2 _ WHITE h
  · exact h
  · exact h
  · exact h

/-- The blocks up to gravity keep the pool within the cap. -/
theorem prePhysics_particles_le (inp : Input) (w : World)
    (h : w.particles.length ≤ MAX_PARTICLES) :
    (prePhysics inp w).2.1.length ≤ MAX_PARTICLES := by
  simp only [prePhysics]
  exact jumping_particles_le _ _ (dashInput_particles_le _ _ h)

/-- The pool at the end of a frame. -/
theorem frame_particles (inp : Input) (w : World) :
    (frame inp w).particles =
      updateParticles inp.dt (if w.active then (prePhysics inp w).2.1 else w.particles) := by
  unfold frame
  dsimp only
  split_ifs <;> rfl

/-- A frame keeps the pool within the cap. -/
theorem frame_particles_le (inp : Input) (w : World) (h : w.particles.length ≤ MAX_PARTICLES) :
    (frame inp w).particles.length ≤ MAX_PARTICLES := by
  rw [frame_particles]
  refine (updateParticles_length_le _ _).trans ?_
  split_ifs
  · exact prePhysics_particles_le inp w h
  · exact h

/-- A run keeps the pool within the cap. -/
theorem run_particles_le (inputs : List Input) (w : World)
    (h : w.particles.length ≤ MAX_PARTICLES) :
    (run inputs w).particles.length ≤ MAX_PARTICLES := by
  induction inputs generalizing w with
  | nil => exact h
  | cons inp rest ih => exact ih _ (frame_particles_le inp w h)

/-- C7: MAX_PARTICLES is 100; AddParticle on a pool of fewer than 100
particles appends exactly one particle, with life 1, the given position and
the given colour, after the unchanged existing particles; on a pool of 100 or
more it leaves the pool unchanged; and in every state reachable from the
initial state (empty pool) by any sequence of frames the pool holds at most 100
particles. -/
theorem particle_pool_capped :
    MAX_PARTICLES = 100 ∧
    (∀ (ps : List Particle) (g : Rng) (pos : Vector2) (c : Color), ps.length < 100 →
      ∃ p : Particle, (AddParticle ps g pos c).1 = ps ++ [p] ∧ p.life = 1 ∧ p.position = pos ∧
        p.color = c) ∧
    (∀ (ps : List Particle) (g : Rng) (pos : Vector2) (c : Color), 100 ≤ ps.length →
      (AddParticle ps g pos c).1 = ps) ∧
    (∀ (draws : Nat → Nat) (inputs : List Input),
      (run inputs (initWorld draws)).particles.length ≤ 100) := by
  refine ⟨rfl, fun ps g pos c h => AddParticle_of_lt ps g pos c h, fun ps g pos c h => ?_,
    fun draws inputs => ?_⟩
  · rw [AddParticle_of_ge ps g pos c h]
  · exact run_particles_le inputs (initWorld draws) (by simp [initWorld])

/-- The emission loop on a full pool does nothing. -/
theorem addParticles_of_full (n : Nat) (ps : List Particle) (g : Rng) (pos : Vector2)
    (c : Color) (h : MAX_PARTICLES ≤ ps.length) : addParticles n ps g pos c = (ps, g) := by
  induction n with
  | zero => rfl
  | succ k ih => simp only [addParticles, AddParticle_of_ge ps g pos c h, ih]

/-- The emission loop: `k` calls on a pool of `n <= 100` particles. -/
theorem addParticles_spec (k : Nat) (ps : List Particle) (g : Rng) (pos : Vector2) (c : Color)
    (h : ps.length ≤ MAX_PARTICLES) :
    (addParticles k ps g pos c).1.length = min (ps.length + k) MAX_PARTICLES ∧
    addParticles k ps g pos c = addParticles (min k (MAX_PARTICLES - ps.length)) ps g pos c ∧
    ∃ new : List Particle, (addParticles k ps g pos c).1 = ps ++ new ∧
      new.length = min k (MAX_PARTICLES - ps.length) ∧
      ∀ p ∈ new, p.life = 1 ∧ p.position = pos ∧ p.color = c := by
  induction k generalizing ps g with
  | zero => exact ⟨by simp [addParticles, h], by simp, [], by simp [addParticles], by simp, by simp⟩
  | succ n ih =>
    rcases Nat.lt_or_ge ps.length MAX_PARTICLES with hlt | hge
    · obtain ⟨p, hp, hl, hpos, hc⟩ := AddParticle_of_lt ps g pos c hlt
      have hlen : (AddParticle ps g pos c).1.length = ps.length + 1 := by
        rw [hp]; simp
      obtain ⟨h1, h2, new, h3, h4, h5⟩ :=
        ih (AddParticle ps g pos c).1 (AddParticle ps g pos c).2 (by omega)
      have hmin : min (n + 1) (MAX_PARTICLES - ps.length) =
          min n (MAX_PARTICLES - (AddParticle ps g pos c).1.length) + 1 := by
        rw [hlen]; omega
      refine ⟨?_, ?_, p :: new, ?_, ?_, ?_⟩
      · simp only [addParticles]
        rw [h1, hlen]; omega
      · rw [hmin]
        simp only [addParticles]
        exact h2
      · simp only [addParticles]
        rw [h3, hp]; simp
      · rw [hmin, ← h4]; simp
      · intro q hq
        rcases List.mem_cons.mp hq with rfl | hq
        · exact ⟨hl, hpos, hc⟩
        · exact h5 q hq
    · have hfull := addParticles_of_full (n + 1) ps g pos c hge
      have hz : min (n + 1) (MAX_PARTICLES - ps.length) = 0 := by omega
      refine ⟨?_, ?_, [], ?_, ?_, ?_⟩
      · rw [hfull]; simp only []; omega
      · rw [hz, hfull]; rfl
      · rw [hfull]; simp
      · rw [hz]; rfl
      · simp

/-- C8: k consecutive AddParticle calls on a pool of n <= 100 particles leave
min (n + k) 100 particles: the result is the one of the first min k (100 - n)
calls alone (the later calls are dropped), which appended one particle each
after the unchanged pool; in particular 150 calls on a pool of 95 leave exactly
100 particles, the result of the first 5 calls. -/
theorem addParticles_caps_at_100 (k : Nat) (ps : List Particle) (g : Rng) (pos : Vector2)
    (c : Color) (h : ps.length ≤ 100) :
    (addParticles k ps g pos c).1.length = min (ps.length + k) 100 ∧
    addParticles k ps g pos c = addParticles (min k (100 - ps.length)) ps g pos c ∧
    (∃ new : List Particle, (addParticles k ps g pos c).1 = ps ++ new ∧
      new.length = min k (100 - ps.length) ∧
      ∀ p ∈ new, p.life = 1 ∧ p.position = pos ∧ p.color = c) ∧
    (ps.length = 95 → (addParticles 150 ps g pos c).1.length = 100 ∧
      addParticles 150 ps g pos c = addParticles 5 ps g pos c) := by
  obtain ⟨h1, h2, h3⟩ := addParticles_spec k ps g pos c h
  refine ⟨h1, h2, h3, fun h95 => ?_⟩
  obtain ⟨a, b, _⟩ := addParticles_spec 150 ps g pos c h
  rw [h95] at a b
  exact ⟨a, b⟩

/-- C8, at a concrete input: 150 calls on a pool of 95 particles. -/
theorem addParticles_caps_at_100_witness :
    (List.replicate 95 sampleParticle).length = 95 ∧
    (addParticles 150 (List.replicate 95 sampleParticle) ⟨fun _ => 0, 0⟩ ⟨0, 0⟩ WHITE).1.length
      = 100 ∧
    addParticles 150 (List.replicate 95 sampleParticle) ⟨fun _ => 0, 0⟩ ⟨0, 0⟩ WHITE =
      addParticles 5 (List.replicate 95 sampleParticle) ⟨fun _ => 0, 0⟩ ⟨0, 0⟩ WHITE :=
  have h := (addParticles_caps_at_100 150 (List.replicate 95 sampleParticle) ⟨fun _ => 0, 0⟩
    ⟨0, 0⟩ WHITE (by simp)).2.2.2 (by simp)
  ⟨by simp, h.1, h.2⟩

/-! ## Particle lifetime -/

/-- C9: after the update-and-prune step, for every frame time and every pool,
every remaining particle has life > 0; so has every particle of the pool at
the end of any frame, those spawned earlier in the same frame included. -/
theorem no_dead_particle_survives :
    (∀ (dt : ℚ) (ps : List Particle), ∀ p ∈ updateParticles dt ps, 0 < p.life) ∧
    (∀ (inp : Input) (w : World), ∀ p ∈ (frame inp w).particles, 0 < p.life) := by
  have key : ∀ (dt : ℚ) (ps : List Particle), ∀ p ∈ updateParticles dt ps, 0 < p.life := by
    intro dt ps p hp
    unfold updateParticles at hp
    have h := (List.mem_filter.mp hp).2
    simpa using h
  refine ⟨key, fun inp w p hp => ?_⟩
  rw [frame_particles] at hp
  exact key _ _ p hp

/-! ## Flag -/

/-- The flag after the guarded step: latched when the frame's player rectangle
overlaps the flag rectangle. -/
theorem activeStep_flag (inp : Input) (w : World) :
    (activeStep inp w).flag =
      if CheckCollisionRecs (framePlayerRect inp w) (flagRectOf w.flag) then
        { w.flag with isReached := true }
      else w.flag := rfl

/-- The flag at the end of a frame. -/
theorem frame_flag (inp : Input) (w : World) :
    (frame inp w).flag = if w.active then (activeStep inp w).flag else w.flag := by
  unfold frame
  dsimp only
  split_ifs <;> rfl

/-- A reached flag stays reached through a frame. -/
theorem frame_flag_latched (inp : Input) (w : World) (h : w.flag.isReached = true) :
    (frame inp w).flag.isReached = true := by
  have ha : w.active = false := by simp [World.active, h]
  rw [frame_flag, ha]
  simpa using h

/-- A reached flag stays reached through a run. -/
theorem run_flag_latched (inputs : List Input) (w : World) (h : w.flag.isReached = true) :
    (run inputs w).flag.isReached = true := by
  induction inputs generalizing w with
  | nil => exact h
  | cons inp rest ih => exact ih _ (frame_flag_latched inp w h)

/-- A 40x40 rectangle that lies inside a flag rectangle overlaps it. -/
theorem overlap_of_inside (x y : ℚ) (flag : Flag)
    (h : flag.position.x ≤ x ∧ x + 40 ≤ flag.position.x + 40 ∧
      flag.position.y ≤ y ∧ y + 40 ≤ flag.position.y + 80) :
    CheckCollisionRecs ⟨x, y, 40, 40⟩ (flagRectOf flag) = true := by
  obtain ⟨h1, h2, h3, h4⟩ := h
  simp only [CheckCollisionRecs, flagRectOf, Bool.and_eq_true, decide_eq_true_eq]
  refine ⟨⟨⟨?_, ?_⟩, ?_⟩, ?_⟩ <;> linarith

/-- C10: in an active frame whose player rectangle (40x40 at the position
after movement and gravity) overlaps the flag rectangle (40x80 at the flag
position), in particular when it lies inside it, isReached is true after the
frame; and once isReached is true it is true after every run of later frames,
whatever the inputs and frame times. -/
theorem flag_is_one_way_latch (inp : Input) (w : World) :
    (w.active = true →
      CheckCollisionRecs (framePlayerRect inp w) (flagRectOf w.flag) = true →
      (frame inp w).flag.isReached = true) ∧
    (w.active = true →
      (w.flag.position.x ≤ (framePlayerRect inp w).x ∧
        (framePlayerRect inp w).x + 40 ≤ w.flag.position.x + 40 ∧
        w.flag.position.y ≤ (framePlayerRect inp w).y ∧
        (framePlayerRect inp w).y + 40 ≤ w.flag.position.y + 80) →
      (frame inp w).flag.isReached = true) ∧
    (w.flag.isReached = true →
      ∀ inputs : List Input, (run inputs w).flag.isReached = true) ∧
    framePlayerRect inp w =
      ⟨(prePhysics inp w).1.position.x, (prePhysics inp w).1.position.y, 40, 40⟩ ∧
    flagRectOf w.flag = ⟨w.flag.position.x, w.flag.position.y, 40, 80⟩ := by
  have h1 : w.active = true →
      CheckCollisionRecs (framePlayerRect inp w) (flagRectOf w.flag) = true →
      (frame inp w).flag.isReached = true := by
    intro ha hc
    rw [frame_flag, ha, if_pos rfl, activeStep_flag, if_pos hc]
  refine ⟨h1, fun ha hin => h1 ha ?_, fun h inputs => run_flag_latched inputs w h, rfl, rfl⟩
  exact overlap_of_inside (framePlayerRect inp w).x (framePlayerRect inp w).y w.flag hin

/-- C10, at a concrete input: a player inside the flag rectangle latches the
flag in one frame, and it stays latched through later frames. -/
theorem flag_is_one_way_latch_witness :
    (levelWorld playerAtFlag).flag.isReached = false ∧
    (frame idle (levelWorld playerAtFlag)).flag.isReached = true ∧
    (run [dashKey, idle] (frame idle (levelWorld playerAtFlag))).flag.isReached = true := by
  have h := flag_is_one_way_latch idle (levelWorld playerAtFlag)
  have h1 : (frame idle (levelWorld playerAtFlag)).flag.isReached = true :=
    h.1 rfl (by decide!)
  exact ⟨rfl, h1,
    (flag_is_one_way_latch dashKey (frame idle (levelWorld playerAtFlag))).2.2.1 h1 [dashKey, idle]⟩

/-! ## Respawn and liveness -/

/-- `ResetPlayer` writes every mutable member. -/
theorem ResetPlayer_eq (p : Player) : ResetPlayer p = spawnPlayer := rfl

/-- The blocks up to gravity leave `isAlive`. -/
theorem prePhysics_isAlive (inp : Input) (w : World) :
    (prePhysics inp w).1.isAlive = w.player.isAlive := by
  have h : (prePhysics inp w).1.dash = (afterDash inp w).dash := by
    simp only [prePhysics, afterDash, applyGravity_dash, jumping_dash, movement_dash]
  have h2 := congrArg (fun d => d.2.2.2.2) h
  simpa [Player.dash, afterDash, dashInput_isAlive, dashLogic_isAlive] using h2

/-- The platform loop leaves `isAlive`. -/
theorem platformLoop_isAlive (pr : Rectangle) (ps : List Platform) (s : Player × Bool) :
    (platformLoop pr ps s).1.1.isAlive = s.1.isAlive := by
  have h2 := congrArg (fun d => d.2.2.2.2) (platformLoop_dash pr ps s)
  simpa [Player.dash] using h2

/-- The guarded step of a living player leaves a living player. -/
theorem activeStep_isAlive (inp : Input) (w : World) (h : w.player.isAlive = true) :
    (activeStep inp w).player.isAlive = true := by
  simp only [activeStep]
  split_ifs
  · rfl
  · rw [platformLoop_isAlive, prePhysics_isAlive, h]

/-- The player is alive at the test of line 258 whenever it was alive when the
frame started. -/
theorem guardedStep_isAlive (inp : Input) (w : World) (h : w.player.isAlive = true) :
    (guardedStep inp w).player.isAlive = true := by
  unfold guardedStep
  split_ifs
  · exact activeStep_isAlive inp w h
  · exact h

/-- The frame of a living player: the guarded step and the particle update. -/
theorem frame_of_alive (inp : Input) (w : World) (h : w.player.isAlive = true) :
    frame inp w =
      { guardedStep inp w with
        particles := updateParticles inp.dt (guardedStep inp w).particles } := by
  have h1 := guardedStep_isAlive inp w h
  unfold guardedStep at h1 ⊢
  unfold frame
  dsimp only
  rw [if_pos h1]

/-- A frame keeps a living player alive. -/
theorem frame_isAlive (inp : Input) (w : World) (h : w.player.isAlive = true) :
    (frame inp w).player.isAlive = true := by
  rw [frame_of_alive inp w h]
  exact guardedStep_isAlive inp w h

/-- A run keeps a living player alive. -/
theorem run_isAlive (inputs : List Input) (w : World) (h : w.player.isAlive = true) :
    (run inputs w).player.isAlive = true := by
  induction inputs generalizing w with
  | nil => exact h
  | cons inp rest ih => exact ih _ (frame_isAlive inp w h)

/-- C17: in every state reachable from the initial state by any sequence of
frames with any inputs, player.isAlive is true; hence in every frame of a run
the player is alive at the test of line 258, and the frame is the guarded step
followed by the particle update: the dead-player branch is never taken. -/
theorem isAlive_never_false (draws : Nat → Nat) (inputs : List Input) (inp : Input) :
    (run inputs (initWorld draws)).player.isAlive = true ∧
    (guardedStep inp (run inputs (initWorld draws))).player.isAlive = true ∧
    frame inp (run inputs (initWorld draws)) =
      { guardedStep inp (run inputs (initWorld draws)) with
        particles :=
          updateParticles inp.dt (guardedStep inp (run inputs (initWorld draws))).particles } := by
  have h : (run inputs (initWorld draws)).player.isAlive = true := run_isAlive inputs _ rfl
  exact ⟨h, guardedStep_isAlive inp _ h, frame_of_alive inp _ h⟩

/-- The player at the end of an active frame that takes the fall-out branch. -/
theorem frame_player_of_fellOut (inp : Input) (w : World) (ha : w.active = true)
    (hf : fellOut inp w = true) : (frame inp w).player = spawnPlayer := by
  have halive : w.player.isAlive = true := by
    simp only [World.active, Bool.and_eq_true] at ha
    exact ha.1
  have hf2 : (frameLoop inp w).1.1.position.y > ((screenHeight + 100 : Int) : ℚ) := by
    simpa [fellOut] using hf
  simp only [frameLoop, framePlayerRect] at hf2
  rw [frame_of_alive inp w halive]
  simp only [guardedStep, ha, if_true, activeStep]
  rw [if_pos hf2]
  rfl

/-- C11: in an active frame in which position.y after the platform loop
exceeds screenHeight + 100 = 550, the player at the end of the frame is the
spawn state: position (100, 100), velocity (0, 0), speed 5, jumpCount 0,
isDashing false, both dash timers 0, isAlive true; ResetPlayer gives this state
from any player and is idempotent. -/
theorem fall_out_respawns (inp : Input) (w : World) (hactive : w.active = true)
    (hfall : (frameLoop inp w).1.1.position.y > 550) :
    (frame inp w).player = ⟨⟨100, 100⟩, ⟨0, 0⟩, 5, 0, false, 0, 0, true⟩ ∧
    ((screenHeight + 100 : Int) : ℚ) = 550 ∧
    (∀ p : Player, ResetPlayer p = ⟨⟨100, 100⟩, ⟨0, 0⟩, 5, 0, false, 0, 0, true⟩) ∧
    (∀ p : Player, ResetPlayer (ResetPlayer p) = ResetPlayer p) := by
  have h550 : ((screenHeight + 100 : Int) : ℚ) = 550 := by norm_num [screenHeight]
  have hf : fellOut inp w = true := by
    simp only [fellOut, decide_eq_true_eq, h550]
    exact hfall
  exact ⟨frame_player_of_fellOut inp w hactive hf, h550, fun _ => rfl, fun _ => rfl⟩

/-- C11, at a concrete input: a dashing player falling past y = 550 beside the
ground platform ends the frame in the spawn state. -/
theorem fall_out_respawns_witness :
    (frameLoop idle (levelWorld fallingPlayer)).1.1.position.y > 550 ∧
    (frame idle (levelWorld fallingPlayer)).player =
      ⟨⟨100, 100⟩, ⟨0, 0⟩, 5, 0, false, 0, 0, true⟩ :=
  ⟨by decide!, (fall_out_respawns idle (levelWorld fallingPlayer) rfl (by decide!)).1⟩

/-! ## The platform loop against the two-phase order of the spec -/

/-- The player part of the platform loop is the fold of the collision block. -/
theorem platformLoop_player (pr : Rectangle) (ps : List Platform) (s : Player × Bool) :
    (platformLoop pr ps s).1 = specResolveAll pr ps s := by
  induction ps generalizing s with
  | nil => rfl
  | cons p rest ih => simp only [platformLoop, specResolveAll, List.foldl_cons, ih]

/-- C13: for every player rectangle, platform list and player state the
platform loop of the code (per platform: resolve, then advance) gives the same
player state, the same local onGround and the same platform states as the
two-phase order of the spec (resolve against all platforms in list order, then
advance all platforms). -/
theorem platformLoop_refines_spec_order (playerRect : Rectangle) (platforms : List Platform)
    (player : Player) (onGround : Bool) :
    platformLoop playerRect platforms (player, onGround) =
      specResolveThenAdvance playerRect platforms (player, onGround) := by
  have h1 := platformLoop_player playerRect platforms (player, onGround)
  have h2 := platformLoop_platforms playerRect platforms (player, onGround)
  exact Prod.ext h1 h2

/-! ## Particle update -/

/-- The update-and-prune step as a selection followed by the per-particle
update. -/
theorem updateParticles_eq_filter_map (dt : ℚ) (ps : List Particle) :
    updateParticles dt ps =
      (ps.filter (fun p => decide (0 < p.life - dt))).map (updateParticle dt) := by
  unfold updateParticles
  rw [List.filter_map]
  congr 1
  apply List.filter_congr
  intro p _
  show (!decide (p.life - dt ≤ 0)) = decide (0 < p.life - dt)
  by_cases h : 0 < p.life - dt
  · simp [h, not_le.mpr h]
  · simp [h, not_lt.mp h]

/-- C14: the update-and-prune step returns exactly the particles of the input
pool whose life minus dt is > 0, in their original order, each updated:
position advanced by the velocity, life reduced by dt, velocity, rotation and
size unchanged; with dt >= 0 no particle's life increases, so each survivor has
a life at most that of the particle it comes from. -/
theorem updateParticles_spec (dt : ℚ) (ps : List Particle) :
    updateParticles dt ps =
      (ps.filter (fun p => decide (0 < p.life - dt))).map (updateParticle dt) ∧
    (∀ p : Particle,
      (updateParticle dt p).position = ⟨p.position.x + p.velocity.x, p.position.y + p.velocity.y⟩ ∧
      (updateParticle dt p).life = p.life - dt ∧
      (updateParticle dt p).velocity = p.velocity ∧
      (updateParticle dt p).rotation = p.rotation ∧
      (updateParticle dt p).size = p.size) ∧
    (0 ≤ dt → ∀ p : Particle, (updateParticle dt p).life ≤ p.life) ∧
    (0 ≤ dt → List.Forall₂ (fun q p => q.life ≤ p.life) (updateParticles dt ps)
      (ps.filter (fun p => decide (0 < p.life - dt)))) := by
  refine ⟨updateParticles_eq_filter_map dt ps, fun p => ⟨rfl, rfl, rfl, rfl, rfl⟩, ?_, ?_⟩
  · intro h p
    show p.life - dt ≤ p.life
    linarith
  · intro h
    rw [updateParticles_eq_filter_map]
    generalize ps.filter (fun p => decide (0 < p.life - dt)) = l
    induction l with
    | nil => exact List.Forall₂.nil
    | cons p rest ih =>
      refine List.Forall₂.cons ?_ ih
      show p.life - dt ≤ p.life
      linarith

/-! ## Dash against normal speed -/

/-- The dash-logic block keeps the dash invariant. -/
theorem dashLogic_exclusive (dt : ℚ) (p : Player) (h : DashExclusive p) :
    DashExclusive (dashLogic dt p) := by
  unfold dashLogic
  dsimp only
  rcases h with ⟨h1, h2, _⟩ | ⟨h1, h2⟩
  · split_ifs
    all_goals first
      | exact Or.inr ⟨rfl, rfl⟩
      | exact Or.inl ⟨h1, h2, lt_of_not_le (by assumption)⟩
  · split_ifs
    all_goals first
      | exact Or.inr ⟨rfl, rfl⟩
      | exact Or.inr ⟨h1, h2⟩

/-- The dash-input block establishes or keeps the dash invariant. -/
theorem dashInput_exclusive (k : Bool) (s : Player × List Particle × Rng)
    (h : DashExclusive s.1) : DashExclusive (dashInput k s).1 := by
  unfold dashInput
  dsimp only
  split_ifs
  · exact Or.inl ⟨rfl, rfl, by norm_num [Player.dashTime]⟩
  · exact h

/-- Only the dash fields matter to the dash invariant. -/
theorem DashExclusive_congr (p q : Player) (h : p.dash = q.dash) (hq : DashExclusive q) :
    DashExclusive p := by
  simp only [Player.dash, Prod.mk.injEq] at h
  obtain ⟨h1, h2, h3, h4, _⟩ := h
  simpa [DashExclusive, h1, h2, h3, h4] using hq

/-- The guarded step keeps the dash invariant. -/
theorem activeStep_exclusive (inp : Input) (w : World) (h : DashExclusive w.player) :
    DashExclusive (activeStep inp w).player := by
  have hp : (prePhysics inp w).1.dash = (afterDash inp w).dash := by
    simp only [prePhysics, afterDash, applyGravity_dash, jumping_dash, movement_dash]
  simp only [activeStep]
  split_ifs
  · exact Or.inr ⟨rfl, rfl⟩
  · refine DashExclusive_congr _ (afterDash inp w) ?_ ?_
    · rw [platformLoop_dash, hp]
    · exact dashInput_exclusive _ _ (dashLogic_exclusive _ _ h)

/-- The player at the end of a frame is the one the guarded step leaves, or
the spawn state. -/
theorem frame_player (inp : Input) (w : World) :
    (frame inp w).player = (guardedStep inp w).player ∨ (frame inp w).player = spawnPlayer := by
  unfold frame guardedStep
  dsimp only
  split_ifs <;> first | exact Or.inl rfl | exact Or.inr rfl

/-- A frame keeps the dash invariant. -/
theorem frame_exclusive (inp : Input) (w : World) (h : DashExclusive w.player) :
    DashExclusive (frame inp w).player := by
  rcases frame_player inp w with h1 | h1
  · rw [h1]
    unfold guardedStep
    split_ifs
    · exact activeStep_exclusive inp w h
    · exact h
  · rw [h1]
    exact Or.inr ⟨rfl, rfl⟩

/-- A run keeps the dash invariant. -/
theorem run_exclusive (inputs : List Input) (w : World) (h : DashExclusive w.player) :
    DashExclusive (run inputs w).player := by
  induction inputs generalizing w with
  | nil => exact h
  | cons inp rest ih => exact ih _ (frame_exclusive inp w h)

/-- C16: in every state reachable from the initial state, isDashing is true
if and only if speed = dashSpeed = 15, speed is the base speed 5 when isDashing
is false, and dashTimer > 0 whenever isDashing is true. -/
theorem dash_excludes_normal_speed (draws : Nat → Nat) (inputs : List Input) :
    ((run inputs (initWorld draws)).player.isDashing = true ↔
      (run inputs (initWorld draws)).player.speed = Player.dashSpeed) ∧
    ((run inputs (initWorld draws)).player.isDashing = false →
      (run inputs (initWorld draws)).player.speed = 5) ∧
    ((run inputs (initWorld draws)).player.isDashing = true →
      0 < (run inputs (initWorld draws)).player.dashTimer) ∧
    Player.dashSpeed = 15 := by
  have h : DashExclusive (run inputs (initWorld draws)).player :=
    run_exclusive inputs _ (Or.inr ⟨rfl, rfl⟩)
  have h15 : Player.dashSpeed = 15 := rfl
  rcases h with ⟨h1, h2, h3⟩ | ⟨h1, h2⟩
  · exact ⟨⟨fun _ => h2, fun _ => h1⟩, fun hf => by simp [h1] at hf, fun _ => h3, h15⟩
  · refine ⟨⟨fun ht => by simp [h1] at ht, fun hs => ?_⟩, fun _ => h2, fun ht => by simp [h1] at ht,
      h15⟩
    rw [h2, h15] at hs
    norm_num at hs

/-! ## Jump count without landing or respawn -/

/-- The collision block leaves the jump count unless it resolves through the
top side. -/
theorem resolveCollision_jumpCount_of_not_top (pr r : Rectangle) (s : Player × Bool)
    (h : ¬ (CheckCollisionRecs pr r = true ∧ minOverlap pr r = overlapTop pr r)) :
    (resolveCollision pr r s).1.jumpCount = s.1.jumpCount := by
  unfold resolveCollision
  dsimp only
  split_ifs with h1 h2
  · exact absurd ⟨h1, h2⟩ h
  all_goals rfl

/-- The platform loop leaves the jump count when no platform is resolved
through the top side. -/
theorem platformLoop_jumpCount_of_no_top (pr : Rectangle) (ps : List Platform)
    (s : Player × Bool)
    (h : ¬ ∃ platform ∈ ps, CheckCollisionRecs pr platform.rect = true ∧
      minOverlap pr platform.rect = overlapTop pr platform.rect) :
    (platformLoop pr ps s).1.1.jumpCount = s.1.jumpCount := by
  induction ps generalizing s with
  | nil => rfl
  | cons p rest ih =>
    simp only [platformLoop]
    rw [ih _ (fun ⟨q, hq, hc⟩ => h ⟨q, List.mem_cons_of_mem _ hq, hc⟩)]
    exact resolveCollision_jumpCount_of_not_top pr p.rect s
      (fun hc => h ⟨p, List.mem_cons_self _ _, hc⟩)

/-- The player after a guarded step that does not take the fall-out branch. -/
theorem activeStep_player_of_not_fellOut (inp : Input) (w : World)
    (hf : fellOut inp w = false) : (activeStep inp w).player = (frameLoop inp w).1.1 := by
  have hf2 : ¬ (frameLoop inp w).1.1.position.y > ((screenHeight + 100 : Int) : ℚ) := by
    simpa [fellOut] using hf
  simp only [frameLoop, framePlayerRect] at hf2
  simp only [activeStep, frameLoop, framePlayerRect]
  rw [if_neg hf2]

/-- C15: in a frame of a living player in which the platform loop resolves no
platform through the top side and the fall-out check does not respawn the
player (both vacuous when the guard of line 117 fails and the loop is not
run), jumpCount after the frame is its value before, or one more when the
frame is active and the jump key was pressed with jumpCount < 2; so it is never
smaller.  Every state reachable from the initial state has a living player. -/
theorem jumpCount_kept_without_landing (inp : Input) (w : World)
    (halive : w.player.isAlive = true)
    (hnotop : w.active = true → ¬ landsOnTop inp w)
    (hnofall : w.active = true → fellOut inp w = false) :
    (frame inp w).player.jumpCount =
      (if w.active = true ∧ inp.keySpace = true ∧ w.player.jumpCount < 2 then
        w.player.jumpCount + 1
      else w.player.jumpCount) ∧
    w.player.jumpCount ≤ (frame inp w).player.jumpCount ∧
    (∀ (draws : Nat → Nat) (inputs : List Input),
      (run inputs (initWorld draws)).player.isAlive = true) := by
  have hjc : (frame inp w).player.jumpCount =
      (if w.active = true ∧ inp.keySpace = true ∧ w.player.jumpCount < 2 then
        w.player.jumpCount + 1
      else w.player.jumpCount) := by
    rw [frame_of_alive inp w halive]
    show (guardedStep inp w).player.jumpCount = _
    unfold guardedStep
    by_cases ha : w.active = true
    · rw [if_pos ha, activeStep_player_of_not_fellOut inp w (hnofall ha), frameLoop,
        platformLoop_jumpCount_of_no_top _ _ _ (hnotop ha), prePhysics_jumpCount]
      have hm : Player.maxJumps = 2 := rfl
      simp only [ha, true_and, hm]
    · rw [if_neg ha, if_neg (fun h => ha h.1)]
  refine ⟨hjc, ?_, fun draws inputs => run_isAlive inputs _ rfl⟩
  rw [hjc]
  split_ifs <;> omega

/-- C15, at a concrete input: in mid-air with one jump used, the jump key
takes jumpCount from 1 to 2. -/
theorem jumpCount_kept_without_landing_witness :
    (levelWorld ⟨⟨100, 200⟩, ⟨0, 0⟩, 5, 1, false, 0, 0, true⟩).player.jumpCount = 1 ∧
    (frame ⟨1 / 60, false, false, false, true, false⟩
      (levelWorld ⟨⟨100, 200⟩, ⟨0, 0⟩, 5, 1, false, 0, 0, true⟩)).player.jumpCount = 2 :=
  ⟨rfl, (jumpCount_kept_without_landing ⟨1 / 60, false, false, false, true, false⟩
    (levelWorld ⟨⟨100, 200⟩, ⟨0, 0⟩, 5, 1, false, 0, 0, true⟩) rfl
    (fun _ => by
      unfold landsOnTop
      decide!)
    (fun _ => by decide!)).1⟩

/-! ## After the flag -/

/-- C20: once isReached is true (and the player is alive, as in every
reachable state), every frame, whatever the input and the frame time, leaves
the player, every platform, the flag and rand() unchanged and only updates and
prunes the existing particles; so does every run of later frames. -/
theorem frozen_after_flag (w : World) (halive : w.player.isAlive = true)
    (hreached : w.flag.isReached = true) :
    (∀ inp : Input, frame inp w = { w with particles := updateParticles inp.dt w.particles }) ∧
    (∀ inputs : List Input,
      run inputs w = { w with particles := agedParticles inputs w.particles }) ∧
    (∀ (draws : Nat → Nat) (inputs : List Input),
      (run inputs (initWorld draws)).player.isAlive = true) := by
  have hframe : ∀ (v : World), v.player.isAlive = true → v.flag.isReached = true →
      ∀ inp : Input, frame inp v = { v with particles := updateParticles inp.dt v.particles } := by
    intro v hv hr inp
    have ha : v.active = false := by simp [World.active, hr]
    rw [frame_of_alive inp v hv]
    simp [guardedStep, ha]
  refine ⟨hframe w halive hreached, ?_, fun draws inputs => run_isAlive inputs _ rfl⟩
  intro inputs
  induction inputs generalizing w with
  | nil => rfl
  | cons inp rest ih =>
    simp only [run]
    rw [hframe w halive hreached inp]
    exact ih { w with particles := updateParticles inp.dt w.particles } halive hreached

/-- C20, at a concrete input: with the flag reached and every key pressed the
frame changes nothing but the pool, where one particle ages and one is
pruned. -/
theorem frozen_after_flag_witness :
    frame allKeys wonWorld =
      { wonWorld with particles := [⟨⟨1, 1⟩, ⟨1, 1⟩, 0, 2, 9 / 10, ⟨255, 255, 255, 229⟩⟩] } := by
  rw [(frozen_after_flag wonWorld rfl rfl).1 allKeys]
  have h : updateParticles allKeys.dt wonWorld.particles =
      [⟨⟨1, 1⟩, ⟨1, 1⟩, 0, 2, 9 / 10, ⟨255, 255, 255, 229⟩⟩] := by decide!
  rw [h]

/-! ## The swing of a moving platform -/

/-- An advance leaves the start position, the move distance and the moving
flag of a platform. -/
theorem advance_params (p : Platform) :
    (advance p).startPos = p.startPos ∧ (advance p).moveDistance = p.moveDistance ∧
      (advance p).isMoving = p.isMoving := by
  unfold advance
  split_ifs <;> exact ⟨rfl, rfl, rfl⟩

/-- Any number of advances leaves the start position, the move distance and
the moving flag of a platform. -/
theorem advance_iterate_params (n : Nat) (p : Platform) :
    (advance^[n] p).startPos = p.startPos ∧ (advance^[n] p).moveDistance = p.moveDistance ∧
      (advance^[n] p).isMoving = p.isMoving := by
  induction n with
  | zero => exact ⟨rfl, rfl, rfl⟩
  | succ k ih =>
    rw [Function.iterate_succ_apply']
    obtain ⟨h1, h2, h3⟩ := advance_params (advance^[k] p)
    exact ⟨h1.trans ih.1, h2.trans ih.2.1, h3.trans ih.2.2⟩

/-- The x axis of an advance of a moving platform. -/
theorem advance_x (p : Platform) (hm : p.isMoving = true) :
    (advance p).rect.x = p.rect.x + p.velocity.x ∧
    (advance p).velocity.x =
      if inBand p.startPos.x p.moveDistance (p.rect.x + p.velocity.x) then p.velocity.x
      else -p.velocity.x := by
  unfold advance
  rw [if_pos hm]
  refine ⟨rfl, ?_⟩
  show (if _ then _ else _) = _
  by_cases h : inBand p.startPos.x p.moveDistance (p.rect.x + p.velocity.x)
  · have h2 : ¬ (p.rect.x + p.velocity.x > p.startPos.x + p.moveDistance ∨
        p.rect.x + p.velocity.x < p.startPos.x - p.moveDistance) := by
      rintro (h3 | h3)
      · exact absurd h.2 (not_le.mpr h3)
      · exact absurd h.1 (not_le.mpr h3)
    rw [if_neg h2, if_pos h]
  · have h2 : p.rect.x + p.velocity.x > p.startPos.x + p.moveDistance ∨
        p.rect.x + p.velocity.x < p.startPos.x - p.moveDistance := by
      by_contra h3
      push_neg at h3
      exact h ⟨h3.2, h3.1⟩
    rw [if_pos h2, if_neg h]
    ring

/-- The y axis of an advance of a moving platform. -/
theorem advance_y (p : Platform) (hm : p.isMoving = true) :
    (advance p).rect.y = p.rect.y + p.velocity.y ∧
    (advance p).velocity.y =
      if inBand p.startPos.y p.moveDistance (p.rect.y + p.velocity.y) then p.velocity.y
      else -p.velocity.y := by
  unfold advance
  rw [if_pos hm]
  refine ⟨rfl, ?_⟩
  show (if _ then _ else _) = _
  by_cases h : inBand p.startPos.y p.moveDistance (p.rect.y + p.velocity.y)
  · have h2 : ¬ (p.rect.y + p.velocity.y > p.startPos.y + p.moveDistance ∨
        p.rect.y + p.velocity.y < p.startPos.y - p.moveDistance) := by
      rintro (h3 | h3)
      · exact absurd h.2 (not_le.mpr h3)
      · exact absurd h.1 (not_le.mpr h3)
    rw [if_neg h2, if_pos h]
  · have h2 : p.rect.y + p.velocity.y > p.startPos.y + p.moveDistance ∨
        p.rect.y + p.velocity.y < p.startPos.y - p.moveDistance := by
      by_contra h3
      push_neg at h3
      exact h ⟨h3.2, h3.1⟩
    rw [if_pos h2, if_neg h]
    ring

/-- One step of the bounce on one axis keeps the swing invariant. -/
theorem Swing_step (start dist x v : ℚ) (h : Swing start dist x v) :
    Swing start dist (x + v) (if inBand start dist (x + v) then v else -v) := by
  by_cases hb : inBand start dist (x + v)
  · exact Or.inl hb
  · rw [if_neg hb]
    rcases h with h | h
    · right
      rw [add_neg_cancel_right]
      exact h
    · exact absurd h hb

/-- The swing invariant bounds the distance to the interval by one step. -/
theorem Swing_bound (start dist x v : ℚ) (h : Swing start dist x v) :
    start - dist - |v| ≤ x ∧ x ≤ start + dist + |v| := by
  have h1 := abs_nonneg v
  have h2 := le_abs_self v
  have h3 := neg_abs_le v
  rcases h with ⟨a, b⟩ | ⟨a, b⟩ <;> constructor <;> linarith

/-- An advance keeps the swing invariant on both axes. -/
theorem advance_swing (p : Platform) (hm : p.isMoving = true)
    (hx : Swing p.startPos.x p.moveDistance p.rect.x p.velocity.x)
    (hy : Swing p.startPos.y p.moveDistance p.rect.y p.velocity.y) :
    Swing p.startPos.x p.moveDistance (advance p).rect.x (advance p).velocity.x ∧
    Swing p.startPos.y p.moveDistance (advance p).rect.y (advance p).velocity.y := by
  rw [(advance_x p hm).1, (advance_x p hm).2, (advance_y p hm).1, (advance_y p hm).2]
  exact ⟨Swing_step _ _ _ _ hx, Swing_step _ _ _ _ hy⟩

/-- Every number of advances keeps the swing invariant on both axes. -/
theorem advance_iterate_swing (n : Nat) (p : Platform) (hm : p.isMoving = true)
    (hx : Swing p.startPos.x p.moveDistance p.rect.x p.velocity.x)
    (hy : Swing p.startPos.y p.moveDistance p.rect.y p.velocity.y) :
    Swing p.startPos.x p.moveDistance (advance^[n] p).rect.x (advance^[n] p).velocity.x ∧
    Swing p.startPos.y p.moveDistance (advance^[n] p).rect.y (advance^[n] p).velocity.y := by
  induction n with
  | zero => exact ⟨hx, hy⟩
  | succ k ih =>
    rw [Function.iterate_succ_apply']
    obtain ⟨h1, h2, h3⟩ := advance_iterate_params k p
    have h := advance_swing (advance^[k] p) (h3.trans hm) (by rw [h1, h2]; exact ih.1)
      (by rw [h1, h2]; exact ih.2)
    rw [h1, h2] at h
    exact h

/-- C18: for a moving platform with moveDistance >= 0 whose origin starts at
startPos, after any number of advances and on each axis: the origin coordinate
lies in [startPos - moveDistance, startPos + moveDistance] or one more step of
the current velocity brings it there; so it is never further than |velocity|
outside the interval, and when it is outside the next advance brings it back
inside. -/
theorem platform_swings_within_one_step (p : Platform) (n : Nat)
    (hmoving : p.isMoving = true) (hdist : 0 ≤ p.moveDistance)
    (hx : p.rect.x = p.startPos.x) (hy : p.rect.y = p.startPos.y) :
    (inBand p.startPos.x p.moveDistance (advance^[n] p).rect.x ∨
      inBand p.startPos.x p.moveDistance
        ((advance^[n] p).rect.x + (advance^[n] p).velocity.x)) ∧
    (inBand p.startPos.y p.moveDistance (advance^[n] p).rect.y ∨
      inBand p.startPos.y p.moveDistance
        ((advance^[n] p).rect.y + (advance^[n] p).velocity.y)) ∧
    (p.startPos.x - p.moveDistance - |(advance^[n] p).velocity.x| ≤ (advance^[n] p).rect.x ∧
      (advance^[n] p).rect.x ≤ p.startPos.x + p.moveDistance + |(advance^[n] p).velocity.x|) ∧
    (p.startPos.y - p.moveDistance - |(advance^[n] p).velocity.y| ≤ (advance^[n] p).rect.y ∧
      (advance^[n] p).rect.y ≤ p.startPos.y + p.moveDistance + |(advance^[n] p).velocity.y|) ∧
    (¬ inBand p.startPos.x p.moveDistance (advance^[n] p).rect.x →
      inBand p.startPos.x p.moveDistance (advance^[n + 1] p).rect.x) ∧
    (¬ inBand p.startPos.y p.moveDistance (advance^[n] p).rect.y →
      inBand p.startPos.y p.moveDistance (advance^[n + 1] p).rect.y) := by
  have h0x : Swing p.startPos.x p.moveDistance p.rect.x p.velocity.x :=
    Or.inl ⟨by rw [hx]; linarith, by rw [hx]; linarith⟩
  have h0y : Swing p.startPos.y p.moveDistance p.rect.y p.velocity.y :=
    Or.inl ⟨by rw [hy]; linarith, by rw [hy]; linarith⟩
  obtain ⟨sx, sy⟩ := advance_iterate_swing n p hmoving h0x h0y
  have hm : (advance^[n] p).isMoving = true := (advance_iterate_params n p).2.2.trans hmoving
  refine ⟨sx, sy, Swing_bound _ _ _ _ sx, Swing_bound _ _ _ _ sy, fun h => ?_, fun h => ?_⟩
  · rw [Function.iterate_succ_apply', (advance_x _ hm).1]
    exact sx.resolve_left h
  · rw [Function.iterate_succ_apply', (advance_y _ hm).1]
    exact sy.resolve_left h

/-- C18, at a concrete input: the level's x-moving platform after 51 advances
is outside [100, 300], one step of its velocity away from it, and back inside
after the next advance. -/
theorem platform_swings_within_one_step_witness :
    ¬ inBand 200 100 (advance^[51] movingPlatformX).rect.x ∧
    inBand 200 100 ((advance^[51] movingPlatformX).rect.x +
      (advance^[51] movingPlatformX).velocity.x) ∧
    inBand 200 100 (advance^[51 + 1] movingPlatformX).rect.x := by
  have h := platform_swings_within_one_step movingPlatformX 51 rfl (by decide!) rfl rfl
  have hout : ¬ inBand 200 100 (advance^[51] movingPlatformX).rect.x := by decide!
  exact ⟨hout, h.1.resolve_left hout, h.2.2.2.2.1 hout⟩

/-! ## Separation after the collision block -/

/-- The minimum overlap is one of the four overlaps. -/
theorem minOverlap_cases (pr r : Rectangle) :
    minOverlap pr r = overlapTop pr r ∨ minOverlap pr r = overlapBottom pr r ∨
      minOverlap pr r = overlapLeft pr r ∨ minOverlap pr r = overlapRight pr r := by
  unfold minOverlap
  rcases min_choice (min (overlapLeft pr r) (overlapRight pr r))
    (min (overlapTop pr r) (overlapBottom pr r)) with h | h
  · rw [h]
    rcases min_choice (overlapLeft pr r) (overlapRight pr r) with h2 | h2
    · exact Or.inr (Or.inr (Or.inl h2))
    · exact Or.inr (Or.inr (Or.inr h2))
  · rw [h]
    rcases min_choice (overlapTop pr r) (overlapBottom pr r) with h2 | h2
    · exact Or.inl h2
    · exact Or.inr (Or.inl h2)

/-- The four strict inequalities of an overlap. -/
theorem CheckCollisionRecs_iff (a r : Rectangle) :
    CheckCollisionRecs a r = true ↔
      a.x < r.x + r.width ∧ a.x + a.width > r.x ∧ a.y < r.y + r.height ∧ a.y + a.height > r.y := by
  simp only [CheckCollisionRecs, Bool.and_eq_true, decide_eq_true_eq]
  tauto

/-- C19: when the 40x40 rectangle at the player's position overlaps a platform
rectangle, the collision block takes exactly one of its four branches (the
first of top, bottom, left, right whose overlap is the minimum), and the 40x40
rectangle at the corrected position no longer overlaps the platform under the
strict test: it touches it along one edge. -/
theorem resolved_rectangle_touches (player : Player) (r : Rectangle) (onGround : Bool)
    (hoverlap : CheckCollisionRecs (playerRectOf player) r = true) :
    let pr := playerRectOf player
    let out := (resolveCollision pr r (player, onGround)).1
    ((minOverlap pr r = overlapTop pr r ∧
        out = { player with
                position := ⟨player.position.x, r.y - 40⟩
                velocity := ⟨player.velocity.x, 0⟩
                jumpCount := 0 }) ∨
      (minOverlap pr r ≠ overlapTop pr r ∧ minOverlap pr r = overlapBottom pr r ∧
        out = { player with
                position := ⟨player.position.x, r.y + r.height⟩
                velocity := ⟨player.velocity.x, 0⟩ }) ∨
      (minOverlap pr r ≠ overlapTop pr r ∧ minOverlap pr r ≠ overlapBottom pr r ∧
        minOverlap pr r = overlapLeft pr r ∧
        out = { player with position := ⟨r.x - 40, player.position.y⟩ }) ∨
      (minOverlap pr r ≠ overlapTop pr r ∧ minOverlap pr r ≠ overlapBottom pr r ∧
        minOverlap pr r ≠ overlapLeft pr r ∧ minOverlap pr r = overlapRight pr r ∧
        out = { player with position := ⟨r.x + r.width, player.position.y⟩ })) ∧
    CheckCollisionRecs (playerRectOf out) r = false ∧
    touchesEdge (playerRectOf out) r := by
  intro pr out
  obtain ⟨o1, o2, o3, o4⟩ := (CheckCollisionRecs_iff _ _).mp hoverlap
  have o1' : player.position.x < r.x + r.width := o1
  have o2' : player.position.x + 40 > r.x := o2
  have o3' : player.position.y < r.y + r.height := o3
  have o4' : player.position.y + 40 > r.y := o4
  by_cases hT : minOverlap pr r = overlapTop pr r
  · have hres : out = { player with
          position := ⟨player.position.x, r.y - 40⟩
          velocity := ⟨player.velocity.x, 0⟩
          jumpCount := 0 } := by
      show (resolveCollision pr r (player, onGround)).1 = _
      unfold resolveCollision
      dsimp only
      rw [if_pos hoverlap, if_pos hT]
      rfl
    refine ⟨Or.inl ⟨hT, hres⟩, ?_, Or.inl ⟨Or.inl ?_, ?_, ?_⟩⟩
    · rw [hres]
      simp [CheckCollisionRecs, playerRectOf]
    all_goals (rw [hres]; simp only [playerRectOf]; linarith)
  by_cases hB : minOverlap pr r = overlapBottom pr r
  · have hres : out = { player with
          position := ⟨player.position.x, r.y + r.height⟩
          velocity := ⟨player.velocity.x, 0⟩ } := by
      show (resolveCollision pr r (player, onGround)).1 = _
      unfold resolveCollision
      dsimp only
      rw [if_pos hoverlap, if_neg hT, if_pos hB]
    refine ⟨Or.inr (Or.inl ⟨hT, hB, hres⟩), ?_, Or.inl ⟨Or.inr ?_, ?_, ?_⟩⟩
    · rw [hres]
      simp [CheckCollisionRecs, playerRectOf]
    all_goals (rw [hres]; (simp only [playerRectOf] <;> linarith))
  by_cases hL : minOverlap pr r = overlapLeft pr r
  · have hres : out = { player with position := ⟨r.x - 40, player.position.y⟩ } := by
      show (resolveCollision pr r (player, onGround)).1 = _
      unfold resolveCollision
      dsimp only
      rw [if_pos hoverlap, if_neg hT, if_neg hB, if_pos hL]
      rfl
    refine ⟨Or.inr (Or.inr (Or.inl ⟨hT, hB, hL, hres⟩)), ?_, Or.inr ⟨Or.inl ?_, ?_, ?_⟩⟩
    · rw [hres]
      simp [CheckCollisionRecs, playerRectOf]
    all_goals (rw [hres]; simp only [playerRectOf]; linarith)
  have hR : minOverlap pr r = overlapRight pr r := by
    rcases minOverlap_cases pr r with h | h | h | h
    · exact absurd h hT
    · exact absurd h hB
    · exact absurd h hL
    · exact h
  have hres : out = { player with position := ⟨r.x + r.width, player.position.y⟩ } := by
    show (resolveCollision pr r (player, onGround)).1 = _
    unfold resolveCollision
    dsimp only
    rw [if_pos hoverlap, if_neg hT, if_neg hB, if_neg hL, if_pos hR]
  refine ⟨Or.inr (Or.inr (Or.inr ⟨hT, hB, hL, hR, hres⟩)), ?_, Or.inr ⟨Or.inr ?_, ?_, ?_⟩⟩
  · rw [hres]
    simp [CheckCollisionRecs, playerRectOf]
  all_goals (rw [hres]; (simp only [playerRectOf] <;> linarith))

/-- C19, at a concrete input: a player 5 units into the ground platform is
put on top of it and no longer overlaps it. -/
theorem resolved_rectangle_touches_witness :
    CheckCollisionRecs (playerRectOf ⟨⟨100, 365⟩, ⟨0, 8⟩, 5, 1, false, 0, 0, true⟩)
      ⟨0, 400, 800, 20⟩ = true ∧
    CheckCollisionRecs
      (playerRectOf (resolveCollision (playerRectOf ⟨⟨100, 365⟩, ⟨0, 8⟩, 5, 1, false, 0, 0, true⟩)
        ⟨0, 400, 800, 20⟩ (⟨⟨100, 365⟩, ⟨0, 8⟩, 5, 1, false, 0, 0, true⟩, false)).1)
      ⟨0, 400, 800, 20⟩ = false :=
  ⟨by decide!, (resolved_rectangle_touches ⟨⟨100, 365⟩, ⟨0, 8⟩, 5, 1, false, 0, 0, true⟩
    ⟨0, 400, 800, 20⟩ false (by decide!)).2.1⟩

/-! ## At rest on a platform -/

/-- An advance leaves the size of a platform and the absolute value of its
velocity components. -/
theorem advance_size_speed (p : Platform) :
    (advance p).rect.width = p.rect.width ∧ (advance p).rect.height = p.rect.height ∧
      |(advance p).velocity.x| = |p.velocity.x| ∧ |(advance p).velocity.y| = |p.velocity.y| := by
  unfold advance
  dsimp only
  split_ifs <;> simp

/-- An advance leaves a platform alone on an axis on which its velocity is 0. -/
theorem advance_still_axis (p : Platform) :
    (p.velocity.x = 0 → (advance p).rect.x = p.rect.x ∧ (advance p).velocity.x = 0) ∧
    (p.velocity.y = 0 → (advance p).rect.y = p.rect.y ∧ (advance p).velocity.y = 0) := by
  unfold advance
  dsimp only
  constructor <;> intro h <;> split_ifs <;> simp [h]

/-- A platform that does not move is a fixed point of any number of
advances. -/
theorem advance_iterate_static (n : Nat) (p : Platform) (h : p.isMoving = false) :
    advance^[n] p = p := by
  have h1 : advance p = p := by
    unfold advance
    rw [if_neg (by simp [h])]
  exact Function.iterate_fixed h1 n

/-- The level's x-moving platform in any phase: same row, same size, origin
at most at 302. -/
theorem movingPlatformX_phase (n : Nat) :
    (advance^[n] movingPlatformX).rect.y = 300 ∧ (advance^[n] movingPlatformX).rect.width = 200 ∧
      (advance^[n] movingPlatformX).rect.height = 20 ∧
      (advance^[n] movingPlatformX).rect.x ≤ 302 := by
  have hinv : (advance^[n] movingPlatformX).rect.y = 300 ∧
      (advance^[n] movingPlatformX).velocity.y = 0 ∧
      (advance^[n] movingPlatformX).rect.width = 200 ∧
      (advance^[n] movingPlatformX).rect.height = 20 ∧
      |(advance^[n] movingPlatformX).velocity.x| = 2 := by
    induction n with
    | zero => exact ⟨rfl, rfl, rfl, rfl, by norm_num [movingPlatformX]⟩
    | succ k ih =>
      rw [Function.iterate_succ_apply']
      obtain ⟨a, b, c, d, e⟩ := ih
      obtain ⟨s1, s2, s3, _⟩ := advance_size_speed (advance^[k] movingPlatformX)
      obtain ⟨t1, t2⟩ := (advance_still_axis (advance^[k] movingPlatformX)).2 b
      exact ⟨t1.trans a, t2, s1.trans c, s2.trans d, s3.trans e⟩
  obtain ⟨a, _, c, d, e⟩ := hinv
  have hs := (advance_iterate_swing n movingPlatformX rfl
    (Or.inl (by norm_num [inBand, movingPlatformX]))
    (Or.inl (by norm_num [inBand, movingPlatformX]))).1
  have hb := (Swing_bound _ _ _ _ hs).2
  rw [e] at hb
  refine ⟨a, c, d, ?_⟩
  have e1 : movingPlatformX.startPos.x = 200 := rfl
  have e2 : movingPlatformX.moveDistance = 100 := rfl
  rw [e1, e2] at hb
  linarith

/-- The level's y-moving platform in any phase: same column, same size,
origin at most at 302. -/
theorem movingPlatformY_phase (n : Nat) :
    (advance^[n] movingPlatformY).rect.x = 500 ∧ (advance^[n] movingPlatformY).rect.width = 150 ∧
      (advance^[n] movingPlatformY).rect.height = 20 ∧
      (advance^[n] movingPlatformY).rect.y ≤ 302 := by
  have hinv : (advance^[n] movingPlatformY).rect.x = 500 ∧
      (advance^[n] movingPlatformY).velocity.x = 0 ∧
      (advance^[n] movingPlatformY).rect.width = 150 ∧
      (advance^[n] movingPlatformY).rect.height = 20 ∧
      |(advance^[n] movingPlatformY).velocity.y| = 2 := by
    induction n with
    | zero => exact ⟨rfl, rfl, rfl, rfl, by norm_num [movingPlatformY]⟩
    | succ k ih =>
      rw [Function.iterate_succ_apply']
      obtain ⟨a, b, c, d, e⟩ := ih
      obtain ⟨s1, s2, _, s4⟩ := advance_size_speed (advance^[k] movingPlatformY)
      obtain ⟨t1, t2⟩ := (advance_still_axis (advance^[k] movingPlatformY)).1 b
      exact ⟨t1.trans a, t2, s1.trans c, s2.trans d, s4.trans e⟩
  obtain ⟨a, _, c, d, e⟩ := hinv
  have hs := (advance_iterate_swing n movingPlatformY rfl
    (Or.inl (by norm_num [inBand, movingPlatformY]))
    (Or.inl (by norm_num [inBand, movingPlatformY]))).2
  have hb := (Swing_bound _ _ _ _ hs).2
  rw [e] at hb
  refine ⟨a, c, d, ?_⟩
  have e1 : movingPlatformY.startPos.y = 200 := rfl
  have e2 : movingPlatformY.moveDistance = 100 := rfl
  rw [e1, e2] at hb
  linarith

/-- The level in any phase of its moving platforms. -/
theorem levelPlatforms_phase (n : Nat) :
    levelPlatforms.map (advance^[n]) =
      [ ⟨⟨0, 400, 800, 20⟩, GRAY, ⟨0, 0⟩, ⟨0, 200⟩, 0, false⟩,
        advance^[n] movingPlatformX,
        advance^[n] movingPlatformY,
        ⟨⟨800, 300, 200, 20⟩, GRAY, ⟨0, 0⟩, ⟨800, 300⟩, 0, false⟩,
        ⟨⟨1200, 200, 150, 20⟩, GRAY, ⟨0, 0⟩, ⟨1200, 200⟩, 0, false⟩ ] := by
  simp only [levelPlatforms, List.map_cons, List.map_nil]
  rw [advance_iterate_static n _ rfl, advance_iterate_static n ⟨⟨800, 300, 200, 20⟩, _, _, _, _, _⟩ rfl,
    advance_iterate_static n ⟨⟨1200, 200, 150, 20⟩, _, _, _, _, _⟩ rfl]
  rfl

/-- The dash-logic block leaves position and velocity. -/
theorem dashLogic_position (dt : ℚ) (p : Player) :
    (dashLogic dt p).position = p.position ∧ (dashLogic dt p).velocity = p.velocity := by
  unfold dashLogic
  dsimp only
  split_ifs <;> exact ⟨rfl, rfl⟩

/-- With no key, the blocks up to gravity are the dash logic and gravity. -/
theorem prePhysics_noKey (inp : Input) (w : World) (h : noKey inp = true) :
    (prePhysics inp w).1 = applyGravity (dashLogic inp.dt w.player) := by
  simp only [noKey, Bool.and_eq_true, Bool.not_eq_true'] at h
  obtain ⟨⟨⟨⟨hz, hr⟩, hl⟩, hs⟩, _⟩ := h
  simp [prePhysics, dashInput, dashFires, movement, jumping, hz, hr, hl, hs]

/-- The player rectangle of a frame without keys that starts with vertical
velocity 0: the same place, half a unit lower. -/
theorem framePlayerRect_noKey (inp : Input) (w : World) (h : noKey inp = true)
    (hv : w.player.velocity.y = 0) :
    framePlayerRect inp w = ⟨w.player.position.x, w.player.position.y + 1 / 2, 40, 40⟩ := by
  obtain ⟨h1, h2⟩ := dashLogic_position inp.dt w.player
  simp only [framePlayerRect, prePhysics_noKey inp w h, playerRectOf, applyGravity, h1, h2, hv,
    gravity, zero_add]

/-- The platform loop of a player that touches one row of platforms from
above: if every platform either does not overlap the player rectangle or is
resolved through the top side at height `top`, and one is, the player keeps its
x and ends at `top - playerRect.height` with vertical velocity 0. -/
theorem platformLoop_lands (pr : Rectangle) (top : ℚ) (ps : List Platform) (s : Player × Bool)
    (hall : ∀ q ∈ ps, CheckCollisionRecs pr q.rect = false ∨
      (CheckCollisionRecs pr q.rect = true ∧ minOverlap pr q.rect = overlapTop pr q.rect ∧
        q.rect.y = top)) :
    (platformLoop pr ps s).1.1.position.x = s.1.position.x ∧
    (((∃ q ∈ ps, CheckCollisionRecs pr q.rect = true) ∨
        (s.1.position.y = top - pr.height ∧ s.1.velocity.y = 0)) →
      (platformLoop pr ps s).1.1.position.y = top - pr.height ∧
        (platformLoop pr ps s).1.1.velocity.y = 0) := by
  induction ps generalizing s with
  | nil =>
    refine ⟨rfl, fun h => ?_⟩
    rcases h with ⟨q, hq, _⟩ | h
    · simp at hq
    · exact h
  | cons p rest ih =>
    simp only [platformLoop]
    have hrest := ih (resolveCollision pr p.rect s)
      (fun q hq => hall q (List.mem_cons_of_mem _ hq))
    rcases hall p (List.mem_cons_self _ _) with hno | ⟨hc, ht, hy⟩
    · have hid : resolveCollision pr p.rect s = s := by simp [resolveCollision, hno]
      rw [hid] at hrest ⊢
      refine ⟨hrest.1, fun h => hrest.2 ?_⟩
      rcases h with ⟨q, hq, hqc⟩ | h
      · rcases List.mem_cons.mp hq with rfl | hq
        · rw [hno] at hqc
          exact absurd hqc (by simp)
        · exact Or.inl ⟨q, hq, hqc⟩
      · exact Or.inr h
    · have hres : resolveCollision pr p.rect s =
          ({ s.1 with
              position := ⟨s.1.position.x, p.rect.y - pr.height⟩
              velocity := ⟨s.1.velocity.x, 0⟩
              jumpCount := 0 }, true) := by
        unfold resolveCollision
        dsimp only
        rw [if_pos hc, if_pos ht]
      rw [hres] at hrest ⊢
      refine ⟨hrest.1, fun _ => hrest.2 (Or.inr ⟨?_, rfl⟩)⟩
      show p.rect.y - pr.height = top - pr.height
      rw [hy]

/-- Rectangles that are apart on one axis do not overlap. -/
theorem not_overlap_of_apart (a r : Rectangle)
    (h : r.x + r.width ≤ a.x ∨ a.x + a.width ≤ r.x ∨ r.y + r.height ≤ a.y ∨
      a.y + a.height ≤ r.y) : CheckCollisionRecs a r = false := by
  rw [← Bool.not_eq_true, CheckCollisionRecs_iff]
  rintro ⟨h1, h2, h3, h4⟩
  rcases h with h | h | h | h <;> linarith

/-- The top overlap is the minimum when it is the smallest of the four. -/
theorem minOverlap_eq_top (a r : Rectangle)
    (h : overlapTop a r ≤ overlapBottom a r ∧ overlapTop a r ≤ overlapLeft a r ∧
      overlapTop a r ≤ overlapRight a r) : minOverlap a r = overlapTop a r := by
  unfold minOverlap
  rw [min_eq_left h.1, min_eq_right (le_min h.2.1 h.2.2)]

/-- With no key the frame is the guarded step and the particle update, also
for a dead player. -/
theorem frame_noKey (inp : Input) (w : World) (h : noKey inp = true) :
    frame inp w =
      { guardedStep inp w with
        particles := updateParticles inp.dt (guardedStep inp w).particles } := by
  simp only [noKey, Bool.and_eq_true, Bool.not_eq_true'] at h
  unfold frame guardedStep
  dsimp only
  rw [h.2]
  split_ifs <;> first | rfl | contradiction

/-- The player rectangle half a unit into the top of a static platform of the
level meets, in any phase of the moving platforms, only that platform, and
through its top side. -/
theorem level_rest_contacts (P : Platform) (hP : P ∈ levelPlatforms)
    (hstatic : P.isMoving = false) (x : ℚ) (n : Nat)
    (hleft : P.rect.x ≤ x) (hright : x + 40 ≤ P.rect.x + P.rect.width) :
    (∀ q ∈ levelPlatforms.map (advance^[n]),
      CheckCollisionRecs ⟨x, P.rect.y - 40 + 1 / 2, 40, 40⟩ q.rect = false ∨
      (CheckCollisionRecs ⟨x, P.rect.y - 40 + 1 / 2, 40, 40⟩ q.rect = true ∧
        minOverlap ⟨x, P.rect.y - 40 + 1 / 2, 40, 40⟩ q.rect =
          overlapTop ⟨x, P.rect.y - 40 + 1 / 2, 40, 40⟩ q.rect ∧
        q.rect.y = P.rect.y)) ∧
    (∃ q ∈ levelPlatforms.map (advance^[n]),
      CheckCollisionRecs ⟨x, P.rect.y - 40 + 1 / 2, 40, 40⟩ q.rect = true) ∧
    P.rect.y ≤ 400 := by
  obtain ⟨a1, a2, a3, a4⟩ := movingPlatformX_phase n
  obtain ⟨b1, b2, b3, b4⟩ := movingPlatformY_phase n
  rw [levelPlatforms_phase]
  generalize advance^[n] movingPlatformX = A at a1 a2 a3 a4
  generalize advance^[n] movingPlatformY = B at b1 b2 b3 b4
  simp only [levelPlatforms, List.mem_cons, List.mem_singleton, List.not_mem_nil, or_false] at hP
  rcases hP with rfl | rfl | rfl | rfl | rfl
  · dsimp only at hleft hright ⊢
    refine ⟨?_, ⟨_, List.mem_cons_self _ _, ?_⟩, by norm_num⟩
    · intro q hq
      simp only [List.mem_cons, List.mem_singleton, List.not_mem_nil, or_false] at hq
      rcases hq with rfl | rfl | rfl | rfl | rfl
      · right
        refine ⟨?_, minOverlap_eq_top _ _ ?_, rfl⟩
        · rw [CheckCollisionRecs_iff]
          dsimp only
          refine ⟨?_, ?_, ?_, ?_⟩ <;> linarith
        · simp only [overlapTop, overlapBottom, overlapLeft, overlapRight]
          refine ⟨?_, ?_, ?_⟩ <;> linarith
      · exact Or.inl (not_overlap_of_apart _ _ (Or.inr (Or.inr (Or.inl (by
          dsimp only; linarith)))))
      · exact Or.inl (not_overlap_of_apart _ _ (Or.inr (Or.inr (Or.inl (by
          dsimp only; linarith)))))
      · exact Or.inl (not_overlap_of_apart _ _ (Or.inr (Or.inr (Or.inl (by
          dsimp only; linarith)))))
      · exact Or.inl (not_overlap_of_apart _ _ (Or.inr (Or.inr (Or.inl (by
          dsimp only; linarith)))))
    · rw [CheckCollisionRecs_iff]
      dsimp only
      refine ⟨?_, ?_, ?_, ?_⟩ <;> linarith
  · exact absurd hstatic (by simp)
  · exact absurd hstatic (by simp)
  · dsimp only at hleft hright ⊢
    refine ⟨?_, ⟨_, List.mem_cons_of_mem _ (List.mem_cons_of_mem _ (List.mem_cons_of_mem _
      (List.mem_cons_self _ _))), ?_⟩, by norm_num⟩
    · intro q hq
      simp only [List.mem_cons, List.mem_singleton, List.not_mem_nil, or_false] at hq
      rcases hq with rfl | rfl | rfl | rfl | rfl
      · exact Or.inl (not_overlap_of_apart _ _ (Or.inr (Or.inr (Or.inr (by
          dsimp only; linarith)))))
      · exact Or.inl (not_overlap_of_apart _ _ (Or.inl (by dsimp only; linarith)))
      · exact Or.inl (not_overlap_of_apart _ _ (Or.inl (by dsimp only; linarith)))
      · right
        refine ⟨?_, minOverlap_eq_top _ _ ?_, rfl⟩
        · rw [CheckCollisionRecs_iff]
          dsimp only
          refine ⟨?_, ?_, ?_, ?_⟩ <;> linarith
        · simp only [overlapTop, overlapBottom, overlapLeft, overlapRight]
          refine ⟨?_, ?_, ?_⟩ <;> linarith
      · exact Or.inl (not_overlap_of_apart _ _ (Or.inr (Or.inl (by dsimp only; linarith))))
    · rw [CheckCollisionRecs_iff]
      dsimp only
      refine ⟨?_, ?_, ?_, ?_⟩ <;> linarith
  · dsimp only at hleft hright ⊢
    refine ⟨?_, ⟨_, List.mem_cons_of_mem _ (List.mem_cons_of_mem _ (List.mem_cons_of_mem _
      (List.mem_cons_of_mem _ (List.mem_cons_self _ _)))), ?_⟩, by norm_num⟩
    · intro q hq
      simp only [List.mem_cons, List.mem_singleton, List.not_mem_nil, or_false] at hq
      rcases hq with rfl | rfl | rfl | rfl | rfl
      · exact Or.inl (not_overlap_of_apart _ _ (Or.inr (Or.inr (Or.inr (by
          dsimp only; linarith)))))
      · exact Or.inl (not_overlap_of_apart _ _ (Or.inr (Or.inr (Or.inr (by
          dsimp only; linarith)))))
      · exact Or.inl (not_overlap_of_apart _ _ (Or.inl (by dsimp only; linarith)))
      · exact Or.inl (not_overlap_of_apart _ _ (Or.inl (by dsimp only; linarith)))
      · right
        refine ⟨?_, minOverlap_eq_top _ _ ?_, rfl⟩
        · rw [CheckCollisionRecs_iff]
          dsimp only
          refine ⟨?_, ?_, ?_, ?_⟩ <;> linarith
        · simp only [overlapTop, overlapBottom, overlapLeft, overlapRight]
          refine ⟨?_, ?_, ?_⟩ <;> linarith
    · rw [CheckCollisionRecs_iff]
      dsimp only
      refine ⟨?_, ?_, ?_, ?_⟩ <;> linarith

/-- One frame without keys keeps a player at rest on a static platform of the
level at rest there, in any phase of the moving platforms. -/
theorem frame_rest (P : Platform) (hP : P ∈ levelPlatforms) (hstatic : P.isMoving = false)
    (w : World) (inp : Input) (hkey : noKey inp = true)
    (hphase : ∃ n, w.platforms = levelPlatforms.map (advance^[n]))
    (hy : w.player.position.y = P.rect.y - 40) (hv : w.player.velocity.y = 0)
    (hleft : P.rect.x ≤ w.player.position.x)
    (hright : w.player.position.x + 40 ≤ P.rect.x + P.rect.width) :
    (∃ n, (frame inp w).platforms = levelPlatforms.map (advance^[n])) ∧
    (frame inp w).player.position.y = P.rect.y - 40 ∧
    (frame inp w).player.velocity.y = 0 ∧
    (frame inp w).player.position.x = w.player.position.x := by
  obtain ⟨n, hn⟩ := hphase
  rw [frame_noKey inp w hkey]
  show (∃ n, (guardedStep inp w).platforms = _) ∧
    (guardedStep inp w).player.position.y = _ ∧ (guardedStep inp w).player.velocity.y = 0 ∧
    (guardedStep inp w).player.position.x = _
  unfold guardedStep
  by_cases ha : w.active = true
  · rw [if_pos ha]
    obtain ⟨hall, hex, h400⟩ := level_rest_contacts P hP hstatic w.player.position.x n hleft hright
    have hrect : framePlayerRect inp w = ⟨w.player.position.x, P.rect.y - 40 + 1 / 2, 40, 40⟩ := by
      rw [framePlayerRect_noKey inp w hkey hv, hy]
    have hloop := platformLoop_lands (framePlayerRect inp w) P.rect.y w.platforms
      ((prePhysics inp w).1, false) (by rw [hrect, hn]; exact hall)
    have hx0 : (prePhysics inp w).1.position.x = w.player.position.x := by
      rw [prePhysics_noKey inp w hkey]
      show (dashLogic inp.dt w.player).position.x = _
      rw [(dashLogic_position inp.dt w.player).1]
    obtain ⟨lx, lyv⟩ := hloop
    obtain ⟨ly, lv⟩ := lyv (Or.inl (by rw [hrect, hn]; exact hex))
    have hh : (framePlayerRect inp w).height = 40 := by rw [hrect]
    rw [hh] at ly
    have hnf : fellOut inp w = false := by
      simp only [fellOut, frameLoop, decide_eq_false_iff_not, not_lt, ly]
      norm_num [screenHeight]
      linarith
    rw [activeStep_player_of_not_fellOut inp w hnf]
    refine ⟨⟨n + 1, ?_⟩, ly, lv, lx.trans hx0⟩
    show (platformLoop _ _ _).2 = _
    rw [platformLoop_platforms, hn, List.map_map]
    congr 1
    funext q
    exact (Function.iterate_succ_apply' advance n q).symm
  · rw [if_neg ha]
    exact ⟨⟨n, hn⟩, hy, hv, rfl⟩

/-- C12 (amended): for every platform of the level that does not move (the
ground and the platforms at (800, 300) and (1200, 200)), in any phase of the
two moving platforms, and every player at rest on top of it (position.y =
platform.y - 40, velocity.y = 0, player rectangle horizontally within the
platform's extent), every run of frames with no key leaves velocity.y = 0 and
position.y = platform.y - 40. -/
theorem rest_on_static_platform (P : Platform) (w : World) (n : Nat) (inputs : List Input)
    (hP : P ∈ levelPlatforms) (hstatic : P.isMoving = false)
    (hphase : w.platforms = levelPlatforms.map (advance^[n]))
    (hy : w.player.position.y = P.rect.y - 40) (hv : w.player.velocity.y = 0)
    (hleft : P.rect.x ≤ w.player.position.x)
    (hright : w.player.position.x + 40 ≤ P.rect.x + P.rect.width)
    (hkeys : ∀ inp ∈ inputs, noKey inp = true) :
    (run inputs w).player.velocity.y = 0 ∧
    (run inputs w).player.position.y = P.rect.y - 40 := by
  have key : ∀ (inputs : List Input) (w : World),
      (∃ n, w.platforms = levelPlatforms.map (advance^[n])) →
      w.player.position.y = P.rect.y - 40 → w.player.velocity.y = 0 →
      P.rect.x ≤ w.player.position.x → w.player.position.x + 40 ≤ P.rect.x + P.rect.width →
      (∀ inp ∈ inputs, noKey inp = true) →
      (run inputs w).player.velocity.y = 0 ∧
        (run inputs w).player.position.y = P.rect.y - 40 := by
    intro inputs
    induction inputs with
    | nil => intro w _ hy hv _ _ _; exact ⟨hv, hy⟩
    | cons inp rest ih =>
      intro w hphase hy hv hleft hright hkeys
      obtain ⟨f1, f2, f3, f4⟩ := frame_rest P hP hstatic w inp
        (hkeys inp (List.mem_cons_self _ _)) hphase hy hv hleft hright
      exact ih (frame inp w) f1 f2 f3 (by rw [f4]; exact hleft) (by rw [f4]; exact hright)
        (fun i hi => hkeys i (List.mem_cons_of_mem _ hi))
  exact key inputs w ⟨n, hphase⟩ hy hv hleft hright hkeys

/-- C12 (amended), at a concrete input: three frames at rest on the ground. -/
theorem rest_on_static_platform_witness :
    (run [idle, idle, idle] (levelWorld restingPlayer)).player.velocity.y = 0 ∧
    (run [idle, idle, idle] (levelWorld restingPlayer)).player.position.y = 400 - 40 :=
  rest_on_static_platform ⟨⟨0, 400, 800, 20⟩, GRAY, ⟨0, 0⟩, ⟨0, 200⟩, 0, false⟩
    (levelWorld restingPlayer) 0 [idle, idle, idle]
    (by simp [levelPlatforms]) rfl (by simp [levelWorld]) (by decide!) rfl (by decide!)
    (by decide!) (by decide)

/-- C12 as stated fails on the two moving platforms of the level.  A player
at rest on the y-moving platform is left behind when the platform moves down:
after two frames without keys it falls with velocity.y = 1/2 at y = 160.5.  A
player at rest on the left end of the x-moving platform is not carried along:
after 21 frames without keys the platform has slid away and the player falls
with velocity.y = 1/2 at y = 260.5. -/
theorem rest_on_moving_platform_fails :
    (movingPlatformY ∈ levelPlatforms ∧
      playerOnMovingY.position.y = movingPlatformY.rect.y - 40 ∧
      playerOnMovingY.velocity.y = 0 ∧
      movingPlatformY.rect.x ≤ playerOnMovingY.position.x ∧
      playerOnMovingY.position.x + 40 ≤ movingPlatformY.rect.x + movingPlatformY.rect.width ∧
      noKey idle = true ∧
      (run [idle, idle] (levelWorld playerOnMovingY)).player.velocity.y = 1 / 2 ∧
      (run [idle, idle] (levelWorld playerOnMovingY)).player.position.y = 321 / 2) ∧
    (movingPlatformX ∈ levelPlatforms ∧
      playerOnMovingX.position.y = movingPlatformX.rect.y - 40 ∧
      playerOnMovingX.velocity.y = 0 ∧
      movingPlatformX.rect.x ≤ playerOnMovingX.position.x ∧
      playerOnMovingX.position.x + 40 ≤ movingPlatformX.rect.x + movingPlatformX.rect.width ∧
      (run (List.replicate 21 idle) (levelWorld playerOnMovingX)).player.velocity.y = 1 / 2 ∧
      (run (List.replicate 21 idle) (levelWorld playerOnMovingX)).player.position.y
        = 521 / 2) := by
  refine ⟨⟨by simp [levelPlatforms, movingPlatformY], by decide!, rfl, by decide!, by decide!,
    rfl, by decide!, by decide!⟩,
    ⟨by simp [levelPlatforms, movingPlatformX], by decide!, rfl, by decide!, by decide!,
    by decide!, by decide!⟩⟩

/-! ## The duration of a dash in the arithmetic of `float` -/

/-- Rounding to an integer stays at or below an integer bound. -/
theorem roundEven_le (y : ℚ) (N : ℤ) (h : y ≤ N) : roundEven y ≤ N := by
  have hf : ⌊y⌋ ≤ N := Int.cast_le.mp ((Int.floor_le y).trans h)
  rcases lt_or_eq_of_le hf with hlt | heq
  · unfold roundEven
    split_ifs <;> omega
  · have hy : y = ⌊y⌋ := le_antisymm (by rw [heq]; exact h) (Int.floor_le y)
    have h0 : y - ⌊y⌋ < 1 / 2 := by
      rw [← hy]; norm_num
    unfold roundEven
    rw [if_pos h0]
    exact hf

/-- Rounding to an integer moves a number by at most one half. -/
theorem roundEven_abs_sub_le (y : ℚ) : |(roundEven y : ℚ) - y| ≤ 1 / 2 := by
  have h1 := Int.floor_le y
  have h2 := Int.lt_floor_add_one y
  unfold roundEven
  split_ifs with a b c
  · rw [abs_le]; constructor <;> linarith
  · rw [abs_le]; push_cast; constructor <;> linarith
  · rw [abs_le]; constructor <;> linarith
  · rw [abs_le]; push_cast; constructor <;> linarith

/-- The spacing is positive. -/
theorem ulp32_pos (x : ℚ) : 0 < ulp32 x := by
  unfold ulp32
  positivity

/-- Rounding moves a number by at most half the spacing. -/
theorem toF32_abs_sub_le (x : ℚ) : |toF32 x - x| ≤ ulp32 x / 2 := by
  have hq := ulp32_pos x
  have h := roundEven_abs_sub_le (x / ulp32 x)
  have e : toF32 x - x = ((roundEven (x / ulp32 x) : ℚ) - x / ulp32 x) * ulp32 x := by
    unfold toF32
    field_simp
  rw [e, abs_mul, abs_of_pos hq]
  calc |(roundEven (x / ulp32 x) : ℚ) - x / ulp32 x| * ulp32 x ≤ 1 / 2 * ulp32 x :=
        mul_le_mul_of_nonneg_right h hq.le
    _ = ulp32 x / 2 := by ring

/-- A number that is not positive rounds to a number that is not positive. -/
theorem toF32_nonpos (x : ℚ) (h : x ≤ 0) : toF32 x ≤ 0 := by
  have hq := ulp32_pos x
  have h1 : roundEven (x / ulp32 x) ≤ 0 :=
    roundEven_le _ 0 (by
      have := div_nonpos_of_nonpos_of_nonneg h hq.le
      simpa using this)
  have h2 : (roundEven (x / ulp32 x) : ℚ) ≤ 0 := by exact_mod_cast h1
  unfold toF32
  exact mul_nonpos_of_nonpos_of_nonneg h2 hq.le

/-- The exponent search stops at once below `2 ^ (lo + 1)`. -/
theorem exponentFrom_of_lt (a : ℚ) (lo : ℤ) (n : ℕ) (h : a < 2 ^ (lo + 1)) :
    exponentFrom a lo n = lo := by
  cases n with
  | zero => rfl
  | succ n =>
    unfold exponentFrom
    rw [if_neg (not_le.mpr h)]

/-- The exponent search finds the exponent `e` with `2 ^ e ≤ a < 2 ^ (e + 1)` when
it lies in the range searched. -/
theorem exponentFrom_eq (a : ℚ) (e : ℤ) (hle : 2 ^ e ≤ a) (hlt : a < 2 ^ (e + 1)) (n : ℕ) :
    ∀ lo : ℤ, lo ≤ e → e ≤ lo + n → exponentFrom a lo n = e := by
  induction n with
  | zero =>
    intro lo h1 h2
    have : lo = e := by
      have : e ≤ lo := by simpa using h2
      omega
    rw [this]
    rfl
  | succ n ih =>
    intro lo h1 h2
    unfold exponentFrom
    by_cases hc : (2 : ℚ) ^ (lo + 1) ≤ a
    · rw [if_pos hc]
      have h3 : lo + 1 < e + 1 :=
        (zpow_lt_zpow_iff_right₀ (by norm_num : (1 : ℚ) < 2)).mp (hc.trans_lt hlt)
      exact ih (lo + 1) (by omega) (by push_cast at h2; omega)
    · rw [if_neg hc]
      have h3 : e < lo + 1 :=
        (zpow_lt_zpow_iff_right₀ (by norm_num : (1 : ℚ) < 2)).mp (hle.trans_lt (not_le.mp hc))
      omega

/-- The exponent used for the spacing of a positive number below `2 ^ 128` is its
binary logarithm rounded down, or -126 if that is larger. -/
theorem exponentFrom_eq_log (x : ℚ) (h0 : 0 < x) (h : x < 2 ^ (128 : ℤ)) :
    exponentFrom x (-126) 253 = max (Int.log 2 x) (-126) := by
  have hle : (2 : ℚ) ^ Int.log 2 x ≤ x := Int.zpow_log_le_self (by norm_num) h0
  have hlt : x < (2 : ℚ) ^ (Int.log 2 x + 1) := Int.lt_zpow_succ_log_self (by norm_num) x
  have hlog : Int.log 2 x < 128 := (Int.lt_zpow_iff_log_lt (by norm_num) h0).mp h
  rcases le_or_lt (-126) (Int.log 2 x) with hc | hc
  · rw [max_eq_left hc]
    exact exponentFrom_eq x _ hle hlt 253 (-126) hc (by push_cast; omega)
  · rw [max_eq_right hc.le]
    refine exponentFrom_of_lt x (-126) 253 (hlt.trans_le ?_)
    exact zpow_le_zpow_right₀ (by norm_num) (by omega)

/-- Below a power of two `2 ^ m` in the normal range the spacing is at most
`2 ^ (m - 24)`, and it divides `2 ^ m`. -/
theorem ulp32_of_lt (x : ℚ) (m : ℤ) (hm : -125 ≤ m) (hm2 : m ≤ 128) (h0 : 0 < x)
    (h : x < 2 ^ m) : ∃ n : ℕ, 24 ≤ n ∧ ulp32 x = 2 ^ (m - n) := by
  have hlog : Int.log 2 x < m := (Int.lt_zpow_iff_log_lt (by norm_num) h0).mp h
  have hx : x < 2 ^ (128 : ℤ) := h.trans_le (zpow_le_zpow_right₀ (by norm_num) hm2)
  refine ⟨(m + 23 - max (Int.log 2 x) (-126)).toNat, ?_, ?_⟩
  · have : max (Int.log 2 x) (-126) ≤ m - 1 := max_le (by omega) (by omega)
    omega
  · unfold ulp32
    rw [abs_of_pos h0, exponentFrom_eq_log x h0 hx]
    congr 1
    have : max (Int.log 2 x) (-126) ≤ m - 1 := max_le (by omega) (by omega)
    rw [Int.toNat_of_nonneg (by omega)]
    ring

/-- An integer rounds to itself. -/
theorem roundEven_intCast (z : ℤ) : roundEven (z : ℚ) = z := by
  unfold roundEven
  rw [Int.floor_intCast, if_pos (by norm_num)]

/-- A positive number up to `2 ^ m` rounds to a number up to `2 ^ m`, at most
`2 ^ (m - 25)` away. -/
theorem toF32_of_le_two_zpow (x : ℚ) (m : ℤ) (hm : -125 ≤ m) (hm2 : m ≤ 127) (h0 : 0 < x)
    (h : x ≤ 2 ^ m) :
    toF32 x ≤ 2 ^ m ∧ |toF32 x - x| ≤ 2 ^ (m - 25) := by
  rcases lt_or_eq_of_le h with hlt | heq
  · obtain ⟨n, hn, hu⟩ := ulp32_of_lt x m hm (by omega) h0 hlt
    have hq := ulp32_pos x
    constructor
    · have hdiv : x / ulp32 x ≤ ((2 ^ n : ℤ) : ℚ) := by
        rw [div_le_iff₀ hq, hu]
        push_cast
        rw [← zpow_natCast, ← zpow_add₀ (by norm_num : (2 : ℚ) ≠ 0)]
        have : (n : ℤ) + (m - n) = m := by ring
        rw [this]
        exact h
      have hr : (roundEven (x / ulp32 x) : ℚ) ≤ ((2 ^ n : ℤ) : ℚ) := by
        exact_mod_cast roundEven_le _ _ hdiv
      have : toF32 x ≤ ((2 ^ n : ℤ) : ℚ) * ulp32 x := by
        unfold toF32
        exact mul_le_mul_of_nonneg_right hr hq.le
      refine this.trans (le_of_eq ?_)
      rw [hu]
      push_cast
      rw [← zpow_natCast, ← zpow_add₀ (by norm_num : (2 : ℚ) ≠ 0)]
      congr 1
      ring
    · refine (toF32_abs_sub_le x).trans ?_
      rw [hu]
      have h1 : (2 : ℚ) ^ (m - n) ≤ 2 ^ (m - 24) :=
        zpow_le_zpow_right₀ (by norm_num) (by omega)
      have h2 : (2 : ℚ) ^ (m - 24) = 2 ^ (m - 25) * 2 := by
        rw [← zpow_add_one₀ (by norm_num : (2 : ℚ) ≠ 0)]
        congr 1
        ring
      linarith
  · have hu : ulp32 x = 2 ^ (m - 23) := by
      unfold ulp32
      rw [abs_of_pos h0, exponentFrom_eq x m heq.ge
        (heq.trans_lt (zpow_lt_zpow_right₀ (by norm_num) (by omega))) 253 (-126)
        (by omega) (by push_cast; omega)]
    have hdiv : x / ulp32 x = ((2 ^ 23 : ℤ) : ℚ) := by
      rw [hu, heq, ← zpow_sub₀ (by norm_num : (2 : ℚ) ≠ 0)]
      have : m - (m - 23) = ((23 : ℕ) : ℤ) := by norm_num
      rw [this, zpow_natCast]
      norm_num
    have hfl : toF32 x = x := by
      unfold toF32
      rw [hdiv, roundEven_intCast, ← hdiv]
      exact div_mul_cancel₀ x (ulp32_pos x).ne'
    rw [hfl]
    refine ⟨h, ?_⟩
    rw [sub_self, abs_zero]
    positivity

/-- In exact arithmetic the frame with rounded dash timers is the frame. -/
theorem frameR_id : frameR id = frame := rfl

/-- The values of the constants used below. -/
theorem f32_constants :
    dashTime32 = 13421773 / 67108864 ∧ toF32 Player.dashCooldown = 1 ∧
      toF32 Player.dashSpeed = 15 ∧ dt60 = toF32 (1 / 60) ∧ dt25 = toF32 (1 / 25) := by
  refine ⟨?_, ?_, ?_, ?_, ?_⟩ <;> decide!

/-- A positive number up to 1/4 rounds to a number up to 1/4, at most
`2 ^ (-27)` away. -/
theorem toF32_quarter (x : ℚ) (h0 : 0 < x) (h : x ≤ 1 / 4) :
    toF32 x ≤ 1 / 4 ∧ |toF32 x - x| ≤ 1 / 134217728 := by
  have h2 := toF32_of_le_two_zpow x (-2) (by norm_num) (by norm_num) h0 (by norm_num; linarith)
  norm_num at h2
  exact ⟨by linarith [h2.1], by linarith [h2.2]⟩

/-- A positive number up to 1 rounds to a number up to 1, at most `2 ^ (-25)`
away. -/
theorem toF32_unit (x : ℚ) (h0 : 0 < x) (h : x ≤ 1) :
    toF32 x ≤ 1 ∧ |toF32 x - x| ≤ 1 / 33554432 := by
  have h2 := toF32_of_le_two_zpow x 0 (by norm_num) (by norm_num) h0 (by norm_num; linarith)
  norm_num at h2
  exact ⟨by linarith [h2.1], by linarith [h2.2]⟩

/-- The dash fields after the dash-logic block of a dashing player. -/
theorem dashLogicR_dashing (rnd : ℚ → ℚ) (dt : ℚ) (p : Player) (h : p.isDashing = true) :
    (rnd (p.dashTimer - dt) ≤ 0 →
      (dashLogicR rnd dt p).isDashing = false ∧ (dashLogicR rnd dt p).speed = 5) ∧
    (¬ rnd (p.dashTimer - dt) ≤ 0 →
      (dashLogicR rnd dt p).isDashing = true ∧ (dashLogicR rnd dt p).speed = p.speed ∧
        (dashLogicR rnd dt p).dashTimer = rnd (p.dashTimer - dt)) := by
  unfold dashLogicR
  dsimp only
  constructor <;> intro ht <;> split_ifs <;> simp_all

/-- The dash fields after the dash-logic block of a player that is not
dashing. -/
theorem dashLogicR_idle (rnd : ℚ → ℚ) (dt : ℚ) (p : Player) (h : p.isDashing = false) :
    (dashLogicR rnd dt p).isDashing = false ∧ (dashLogicR rnd dt p).speed = p.speed := by
  unfold dashLogicR
  dsimp only
  split_ifs <;> simp_all

/-- The cooldown timer after the dash-logic block. -/
theorem dashLogicR_cooldown (rnd : ℚ → ℚ) (dt : ℚ) (p : Player) :
    (dashLogicR rnd dt p).dashCooldownTimer =
      if p.dashCooldownTimer > 0 then rnd (p.dashCooldownTimer - dt)
      else p.dashCooldownTimer := by
  unfold dashLogicR
  dsimp only
  split_ifs <;> rfl

/-- The dash-input block with rounded constants, when it fires and when it
does not. -/
theorem dashInputR_player (rnd : ℚ → ℚ) (k : Bool) (s : Player × List Particle × Rng) :
    (dashFires k s.1 = true →
      (dashInputR rnd k s).1.isDashing = true ∧
      (dashInputR rnd k s).1.dashTimer = rnd Player.dashTime ∧
      (dashInputR rnd k s).1.dashCooldownTimer = rnd Player.dashCooldown ∧
      (dashInputR rnd k s).1.speed = rnd Player.dashSpeed) ∧
    (dashFires k s.1 = false → dashInputR rnd k s = s) := by
  unfold dashInputR
  dsimp only
  constructor <;> intro h <;> simp [h]

/-- The dash-logic block with rounded timers leaves `isAlive`. -/
theorem dashLogicR_isAlive (rnd : ℚ → ℚ) (dt : ℚ) (p : Player) :
    (dashLogicR rnd dt p).isAlive = p.isAlive := by
  unfold dashLogicR
  dsimp only
  split_ifs <;> rfl

/-- The dash-input block with rounded constants leaves `isAlive`. -/
theorem dashInputR_isAlive (rnd : ℚ → ℚ) (k : Bool) (s : Player × List Particle × Rng) :
    (dashInputR rnd k s).1.isAlive = s.1.isAlive := by
  unfold dashInputR
  dsimp only
  split_ifs <;> rfl

/-- In an active frame without fall-out the dash fields at the end of the frame
are those the two dash blocks leave, in any arithmetic of the timers. -/
theorem frameR_dash_of_steady (rnd : ℚ → ℚ) (inp : Input) (w : World) (ha : w.active = true)
    (hf : fellOutR rnd inp w = false) :
    (frameR rnd inp w).player.dash = (afterDashR rnd inp w).dash := by
  have hp : (prePhysicsR rnd inp w).1.dash = (afterDashR rnd inp w).dash := by
    simp only [prePhysicsR, afterDashR, applyGravity_dash, jumping_dash, movement_dash]
  have hl : (frameLoopR rnd inp w).1.1.dash = (afterDashR rnd inp w).dash := by
    rw [frameLoopR, platformLoop_dash, hp]
  have hs : (activeStepR rnd inp w).player = (frameLoopR rnd inp w).1.1 := by
    have hf2 : ¬ (frameLoopR rnd inp w).1.1.position.y > ((screenHeight + 100 : Int) : ℚ) := by
      simpa [fellOutR] using hf
    simp only [frameLoopR] at hf2
    simp only [activeStepR, frameLoopR]
    rw [if_neg hf2]
  have halive : (activeStepR rnd inp w).player.isAlive = true := by
    have h1 : (activeStepR rnd inp w).player.dash.2.2.2.2 =
        (afterDashR rnd inp w).dash.2.2.2.2 := by
      rw [hs, hl]
    have h2 : w.player.isAlive = true := by
      simp only [World.active, Bool.and_eq_true] at ha
      exact ha.1
    simpa [Player.dash, afterDashR, dashInputR_isAlive, dashLogicR_isAlive, h2] using h1
  unfold frameR
  dsimp only
  rw [if_pos ha, if_pos halive]
  show (activeStepR rnd inp w).player.dash = _
  rw [hs, hl]

/-- Only the dash fields matter to the lower half of the dash clock. -/
theorem DashLower_congr (j : ℕ) (S : ℚ) (p q : Player) (h : p.dash = q.dash)
    (hq : DashLower j S q) : DashLower j S p := by
  simp only [Player.dash, Prod.mk.injEq] at h
  obtain ⟨h1, h2, h3, h4, _⟩ := h
  simpa [DashLower, h1, h2, h3, h4] using hq

/-- Only the dash fields matter to the upper half of the dash clock. -/
theorem DashUpper_congr (j : ℕ) (S : ℚ) (p q : Player) (h : p.dash = q.dash)
    (hq : DashUpper j S q) : DashUpper j S p := by
  simp only [Player.dash, Prod.mk.injEq] at h
  obtain ⟨h1, h2, h3, h4, _⟩ := h
  simpa [DashUpper, h1, h2, h3, h4] using hq

/-- One frame of the dash blocks in `float` arithmetic keeps the dash on while
the accumulated frame time stays more than the accumulated rounding below
`dashTime`. -/
theorem afterDash32_lower (inp : Input) (w : World) (j : ℕ) (S : ℚ) (hdt : 0 ≤ inp.dt)
    (hS : 0 ≤ S) (h : DashLower j S w.player)
    (hlt : S + inp.dt < dashTime32 - ((j + 1 : ℕ) : ℚ) * (1 / 134217728)) :
    DashLower (j + 1) (S + inp.dt) (afterDashR toF32 inp w) := by
  obtain ⟨hd, hs, hlo, hhi⟩ := h
  obtain ⟨cD, _, c15, _, _⟩ := f32_constants
  push_cast at hlt
  have hx0 : 1 / 134217728 < w.player.dashTimer - inp.dt := by linarith
  have hx1 : w.player.dashTimer - inp.dt ≤ 1 / 4 := by linarith
  obtain ⟨q1, q2⟩ := toF32_quarter _ (by linarith) hx1
  rw [abs_le] at q2
  have hpos : ¬ toF32 (w.player.dashTimer - inp.dt) ≤ 0 := by
    rw [not_le]; linarith [q2.1]
  obtain ⟨l1, l2, l3⟩ := (dashLogicR_dashing toF32 inp.dt w.player hd).2 hpos
  unfold afterDashR
  by_cases hf : dashFires inp.keyZ (dashLogicR toF32 inp.dt w.player) = true
  · obtain ⟨a, b, _, d⟩ :=
      (dashInputR_player toF32 inp.keyZ (dashLogicR toF32 inp.dt w.player, w.particles, w.rng)).1 hf
    refine ⟨a, d.trans c15, ?_, ?_⟩
    · rw [b]
      show _ ≤ dashTime32
      push_cast
      linarith
    · rw [b]
      show dashTime32 ≤ _
      rw [cD]
      norm_num
  · rw [(dashInputR_player toF32 inp.keyZ
      (dashLogicR toF32 inp.dt w.player, w.particles, w.rng)).2 (by simpa using hf)]
    refine ⟨l1, l2.trans hs, ?_, ?_⟩
    · show _ ≤ (dashLogicR toF32 inp.dt w.player).dashTimer
      rw [l3]
      push_cast
      linarith [q2.1]
    · show (dashLogicR toF32 inp.dt w.player).dashTimer ≤ _
      rw [l3]
      exact q1

/-- One frame of the dash blocks in `float` arithmetic, while the cooldown has
not run out: no new dash starts, and a dash that is on has a timer at most the
accumulated rounding above `dashTime` minus the accumulated frame time. -/
theorem afterDash32_upper (inp : Input) (w : World) (j : ℕ) (S : ℚ) (hdt : 0 ≤ inp.dt)
    (h : DashUpper j S w.player)
    (hlt : S + inp.dt < 1 - ((j + 1 : ℕ) : ℚ) * (1 / 33554432)) :
    DashUpper (j + 1) (S + inp.dt) (afterDashR toF32 inp w) := by
  obtain ⟨c1, c2, hdash⟩ := h
  push_cast at hlt
  have hc0 : w.player.dashCooldownTimer > 0 := by linarith
  have hy0 : 1 / 33554432 < w.player.dashCooldownTimer - inp.dt := by linarith
  obtain ⟨r1, r2⟩ := toF32_unit _ (by linarith) (by linarith : w.player.dashCooldownTimer - inp.dt ≤ 1)
  rw [abs_le] at r2
  have hcd : (dashLogicR toF32 inp.dt w.player).dashCooldownTimer =
      toF32 (w.player.dashCooldownTimer - inp.dt) := by
    rw [dashLogicR_cooldown, if_pos hc0]
  have hcpos : 0 < (dashLogicR toF32 inp.dt w.player).dashCooldownTimer := by
    rw [hcd]; linarith [r2.1]
  have hnf : dashFires inp.keyZ (dashLogicR toF32 inp.dt w.player) = false := by
    simp [dashFires, not_le.mpr hcpos]
  unfold afterDashR
  rw [(dashInputR_player toF32 inp.keyZ
    (dashLogicR toF32 inp.dt w.player, w.particles, w.rng)).2 hnf]
  show DashUpper (j + 1) (S + inp.dt) (dashLogicR toF32 inp.dt w.player)
  refine ⟨?_, ?_, ?_⟩
  · rw [hcd]
    push_cast
    linarith [r2.1]
  · rw [hcd]
    exact r1
  · rcases hdash with ⟨hd, hs, t0, t1, t2⟩ | ⟨hd, hs⟩
    · by_cases hx : toF32 (w.player.dashTimer - inp.dt) ≤ 0
      · exact Or.inr ((dashLogicR_dashing toF32 inp.dt w.player hd).1 hx)
      · obtain ⟨l1, l2, l3⟩ := (dashLogicR_dashing toF32 inp.dt w.player hd).2 hx
        have hxpos : 0 < w.player.dashTimer - inp.dt := by
          by_contra hneg
          exact hx (toF32_nonpos _ (not_lt.mp hneg))
        obtain ⟨q1, q2⟩ := toF32_quarter _ hxpos (by linarith)
        rw [abs_le] at q2
        refine Or.inl ⟨l1, l2.trans hs, ?_, ?_, ?_⟩
        · rw [l3]; exact not_le.mp hx
        · rw [l3]; push_cast; linarith [q2.2]
        · rw [l3]; exact q1
    · obtain ⟨l1, l2⟩ := dashLogicR_idle toF32 inp.dt w.player hd
      exact Or.inr ⟨l1, l2.trans hs⟩

/-- The accumulated frame time of a steady run is not negative. -/
theorem steadyRunR_elapsed_nonneg (rnd : ℚ → ℚ) (inputs : List Input) (w : World)
    (h : steadyRunR rnd inputs w = true) : 0 ≤ elapsed inputs := by
  induction inputs generalizing w with
  | nil => simp [elapsed]
  | cons inp rest ih =>
    simp only [steadyRunR, Bool.and_eq_true, decide_eq_true_eq, Bool.not_eq_true'] at h
    obtain ⟨⟨⟨_, hdt⟩, _⟩, hrest⟩ := h
    have := ih _ hrest
    simp only [elapsed, List.map_cons, List.sum_cons] at this ⊢
    linarith

/-- A steady run in `float` arithmetic keeps the dash on while the accumulated
frame time stays more than the accumulated rounding below `dashTime`. -/
theorem runR32_lower (inputs : List Input) (w : World) (j : ℕ) (S : ℚ)
    (hrun : steadyRunR toF32 inputs w = true) (hS : 0 ≤ S) (h : DashLower j S w.player)
    (hlt : S + elapsed inputs < dashTime32 - ((j + inputs.length : ℕ) : ℚ) * (1 / 134217728)) :
    DashLower (j + inputs.length) (S + elapsed inputs) (runR toF32 inputs w).player := by
  induction inputs generalizing w j S with
  | nil => simpa [elapsed, runR] using h
  | cons inp rest ih =>
    simp only [steadyRunR, Bool.and_eq_true, decide_eq_true_eq, Bool.not_eq_true'] at hrun
    obtain ⟨⟨⟨ha, hdt⟩, hf⟩, hrest⟩ := hrun
    have hnn := steadyRunR_elapsed_nonneg toF32 rest _ hrest
    have he : elapsed (inp :: rest) = inp.dt + elapsed rest := by simp [elapsed]
    have hlen : (inp :: rest).length = rest.length + 1 := rfl
    rw [he, hlen] at hlt
    push_cast at hlt
    have hr : (0 : ℚ) ≤ (rest.length : ℚ) := Nat.cast_nonneg _
    have h1 : DashLower (j + 1) (S + inp.dt) (frameR toF32 inp w).player :=
      DashLower_congr _ _ _ _ (frameR_dash_of_steady toF32 inp w ha hf)
        (afterDash32_lower inp w j S hdt hS h (by push_cast; nlinarith))
    have h2 := ih (frameR toF32 inp w) (j + 1) (S + inp.dt) hrest (by linarith) h1
      (by push_cast; linarith)
    rw [he, hlen, show j + (rest.length + 1) = j + 1 + rest.length by omega,
      show S + (inp.dt + elapsed rest) = S + inp.dt + elapsed rest by ring]
    exact h2

/-- A steady run in `float` arithmetic, while the cooldown has not run out:
no new dash starts, and a dash that is on has a timer at most the accumulated
rounding above `dashTime` minus the accumulated frame time. -/
theorem runR32_upper (inputs : List Input) (w : World) (j : ℕ) (S : ℚ)
    (hrun : steadyRunR toF32 inputs w = true) (h : DashUpper j S w.player)
    (hlt : S + elapsed inputs < 1 - ((j + inputs.length : ℕ) : ℚ) * (1 / 33554432)) :
    DashUpper (j + inputs.length) (S + elapsed inputs) (runR toF32 inputs w).player := by
  induction inputs generalizing w j S with
  | nil => simpa [elapsed, runR] using h
  | cons inp rest ih =>
    simp only [steadyRunR, Bool.and_eq_true, decide_eq_true_eq, Bool.not_eq_true'] at hrun
    obtain ⟨⟨⟨ha, hdt⟩, hf⟩, hrest⟩ := hrun
    have hnn := steadyRunR_elapsed_nonneg toF32 rest _ hrest
    have he : elapsed (inp :: rest) = inp.dt + elapsed rest := by simp [elapsed]
    have hlen : (inp :: rest).length = rest.length + 1 := rfl
    rw [he, hlen] at hlt
    push_cast at hlt
    have hr : (0 : ℚ) ≤ (rest.length : ℚ) := Nat.cast_nonneg _
    have h1 : DashUpper (j + 1) (S + inp.dt) (frameR toF32 inp w).player :=
      DashUpper_congr _ _ _ _ (frameR_dash_of_steady toF32 inp w ha hf)
        (afterDash32_upper inp w j S hdt h (by push_cast; nlinarith))
    have h2 := ih (frameR toF32 inp w) (j + 1) (S + inp.dt) hrest h1
      (by push_cast; linarith)
    rw [he, hlen, show j + (rest.length + 1) = j + 1 + rest.length by omega,
      show S + (inp.dt + elapsed rest) = S + inp.dt + elapsed rest by ring]
    exact h2

/-- The state right after a trigger is on both halves of the dash clock at
time 0. -/
theorem afterDash32_of_triggered (inp : Input) (w : World)
    (h : dashTriggeredR toF32 inp w = true) :
    DashLower 0 0 (afterDashR toF32 inp w) ∧ DashUpper 0 0 (afterDashR toF32 inp w) := by
  have hf : dashFires inp.keyZ (dashLogicR toF32 inp.dt w.player) = true := by
    simp only [dashTriggeredR, Bool.and_eq_true] at h
    exact h.2
  obtain ⟨cD, cC, c15, _, _⟩ := f32_constants
  obtain ⟨a, b, c, d⟩ :=
    (dashInputR_player toF32 inp.keyZ (dashLogicR toF32 inp.dt w.player, w.particles, w.rng)).1 hf
  have hb : (afterDashR toF32 inp w).dashTimer = dashTime32 := b
  have hc : (afterDashR toF32 inp w).dashCooldownTimer = 1 := c.trans cC
  have hd : (afterDashR toF32 inp w).speed = 15 := d.trans c15
  have ha : (afterDashR toF32 inp w).isDashing = true := a
  have hq : dashTime32 ≤ 1 / 4 := by rw [cD]; norm_num
  have hp : 0 < dashTime32 := by rw [cD]; norm_num
  refine ⟨⟨ha, hd, ?_, ?_⟩, ?_, ?_, Or.inl ⟨ha, hd, ?_, ?_, ?_⟩⟩
  · rw [hb]; norm_num
  · rw [hb]; exact hq
  · rw [hc]; norm_num
  · rw [hc]
  · rw [hb]; exact hp
  · rw [hb]; norm_num
  · rw [hb]; exact hq

/-- C5 (amended): with the two dash timers in the arithmetic of `float`, after a
frame that triggers a dash (and does not respawn), along any run of k active
frames with non-negative frame times and no respawn, the player is dashing at
speed dashSpeed = 15 as long as the accumulated frame time is below
dashTime - k * 2 ^ (-27), and is not dashing, at base speed 5, once the
accumulated frame time has reached dashTime + k * 2 ^ (-27) (and is still below
dashCooldown - k * 2 ^ (-25), so that no next dash can have started).  Here
dashTime is the `float` 0.2f = 13421773 / 67108864 and 2 ^ (-27) bounds the
rounding of one subtraction from the timer; closer than k * 2 ^ (-27) to
dashTime the rounding decides whether the dash is still on. -/
theorem dash_lasts_dashTime_up_to_rounding (inp0 : Input) (w : World) (inputs : List Input)
    (htrig : dashTriggeredR toF32 inp0 w = true) (hno : fellOutR toF32 inp0 w = false)
    (hrun : steadyRunR toF32 inputs (frameR toF32 inp0 w) = true) :
    (elapsed inputs < dashTime32 - inputs.length * (1 / 2 ^ 27) →
      (runR toF32 inputs (frameR toF32 inp0 w)).player.isDashing = true ∧
      (runR toF32 inputs (frameR toF32 inp0 w)).player.speed = Player.dashSpeed) ∧
    (dashTime32 + inputs.length * (1 / 2 ^ 27) ≤ elapsed inputs →
      elapsed inputs < Player.dashCooldown - inputs.length * (1 / 2 ^ 25) →
      (runR toF32 inputs (frameR toF32 inp0 w)).player.isDashing = false ∧
      (runR toF32 inputs (frameR toF32 inp0 w)).player.speed = 5) ∧
    dashTime32 = toF32 (1 / 5) ∧ dashTime32 = 13421773 / 67108864 ∧
    Player.dashSpeed = 15 ∧ Player.dashCooldown = 1 := by
  have ha : w.active = true := by
    simp only [dashTriggeredR, Bool.and_eq_true] at htrig
    exact htrig.1
  obtain ⟨l0, u0⟩ := afterDash32_of_triggered inp0 w htrig
  have hd := frameR_dash_of_steady toF32 inp0 w ha hno
  have l1 := DashLower_congr _ _ _ _ hd l0
  have u1 := DashUpper_congr _ _ _ _ hd u0
  refine ⟨fun h => ?_, fun h1 h2 => ?_, rfl, f32_constants.1, rfl, rfl⟩
  · have := runR32_lower inputs (frameR toF32 inp0 w) 0 0 hrun le_rfl l1
      (by rw [zero_add, zero_add]; norm_num at h ⊢; linarith)
    exact ⟨this.1, this.2.1⟩
  · have hc : Player.dashCooldown = 1 := rfl
    rw [hc] at h2
    have := runR32_upper inputs (frameR toF32 inp0 w) 0 0 hrun u1
      (by rw [zero_add, zero_add]; norm_num at h2 ⊢; linarith)
    rw [zero_add, zero_add] at this
    rcases this.2.2 with ⟨_, _, t0, t1, _⟩ | hover
    · exfalso
      norm_num at h1 t1
      linarith
    · exact hover

/-- C5 (amended), at a concrete input: the resting player dashes at the frame
time `float(1.0 / 60)`; 11 frames later the dash is still on at speed 15, 13
frames later it is over and the speed is 5. -/
theorem dash_lasts_dashTime_up_to_rounding_witness :
    dashTriggeredR toF32 dashKey60 (levelWorld restingPlayer) = true ∧
    elapsed (List.replicate 11 idle60) < dashTime32 - (11 : ℕ) * (1 / 2 ^ 27) ∧
    ((runR toF32 (List.replicate 11 idle60)
        (frameR toF32 dashKey60 (levelWorld restingPlayer))).player.isDashing = true ∧
      (runR toF32 (List.replicate 11 idle60)
        (frameR toF32 dashKey60 (levelWorld restingPlayer))).player.speed = Player.dashSpeed) ∧
    dashTime32 + (13 : ℕ) * (1 / 2 ^ 27) ≤ elapsed (List.replicate 13 idle60) ∧
    ((runR toF32 (List.replicate 13 idle60)
        (frameR toF32 dashKey60 (levelWorld restingPlayer))).player.isDashing = false ∧
      (runR toF32 (List.replicate 13 idle60)
        (frameR toF32 dashKey60 (levelWorld restingPlayer))).player.speed = 5) := by
  have h1 : dashTriggeredR toF32 dashKey60 (levelWorld restingPlayer) = true := by decide!
  have h2 : fellOutR toF32 dashKey60 (levelWorld restingPlayer) = false := by decide!
  have r11 : steadyRunR toF32 (List.replicate 11 idle60)
      (frameR toF32 dashKey60 (levelWorld restingPlayer)) = true := by decide!
  have r13 : steadyRunR toF32 (List.replicate 13 idle60)
      (frameR toF32 dashKey60 (levelWorld restingPlayer)) = true := by decide!
  have e11 : elapsed (List.replicate 11 idle60) < dashTime32 - (11 : ℕ) * (1 / 2 ^ 27) := by
    decide!
  have e13 : dashTime32 + (13 : ℕ) * (1 / 2 ^ 27) ≤ elapsed (List.replicate 13 idle60) := by
    decide!
  have c13 : elapsed (List.replicate 13 idle60) <
      Player.dashCooldown - (13 : ℕ) * (1 / 2 ^ 25) := by decide!
  exact ⟨h1, e11,
    (dash_lasts_dashTime_up_to_rounding dashKey60 (levelWorld restingPlayer)
      (List.replicate 11 idle60) h1 h2 r11).1 e11, e13,
    (dash_lasts_dashTime_up_to_rounding dashKey60 (levelWorld restingPlayer)
      (List.replicate 13 idle60) h1 h2 r13).2.1 e13 c13⟩

/-- The run at the frame time `float(1.0 / 60)`: a dash is triggered from rest,
and neither that frame nor one of the 12 frames without keys that follow
respawns the player or touches the flag. -/
theorem dash_at_dt60_steady :
    dashTriggeredR toF32 dashKey60 (levelWorld restingPlayer) = true ∧
    fellOutR toF32 dashKey60 (levelWorld restingPlayer) = false ∧
    steadyRunR toF32 (List.replicate 12 idle60)
      (frameR toF32 dashKey60 (levelWorld restingPlayer)) = true := by
  have a1 : dashTriggeredR toF32 dashKey60 (levelWorld restingPlayer) = true := by decide!
  have a2 : fellOutR toF32 dashKey60 (levelWorld restingPlayer) = false := by decide!
  have a3 : steadyRunR toF32 (List.replicate 12 idle60)
      (frameR toF32 dashKey60 (levelWorld restingPlayer)) = true := by decide!
  exact ⟨a1, a2, a3⟩

/-- The dash fields 12 frames of `float(1.0 / 60)` seconds after the trigger:
the timer is still positive and the dash is still on. -/
theorem dash_at_dt60_state :
    (runR toF32 (List.replicate 12 idle60)
      (frameR toF32 dashKey60 (levelWorld restingPlayer))).player.dash =
      (true, 3 / 268435456, 838861 / 1048576, 15, true) := by
  decide!

/-- The dash fields 5 frames of `float(1.0 / 25)` seconds after the trigger: the
timer has reached 0 and the dash is over. -/
theorem dash_at_dt25_state :
    (runR toF32 (List.replicate 5 idle25)
      (frameR toF32 dashKey25 (levelWorld restingPlayer))).player.dash =
      (false, 0, 13421771 / 16777216, 5, true) := by
  decide!

/-- The run at the frame time `float(1.0 / 25)`: a dash is triggered from rest,
and neither that frame nor one of the 5 frames without keys that follow
respawns the player or touches the flag. -/
theorem dash_at_dt25_steady :
    dashTriggeredR toF32 dashKey25 (levelWorld restingPlayer) = true ∧
    fellOutR toF32 dashKey25 (levelWorld restingPlayer) = false ∧
    steadyRunR toF32 (List.replicate 5 idle25)
      (frameR toF32 dashKey25 (levelWorld restingPlayer)) = true := by
  have b1 : dashTriggeredR toF32 dashKey25 (levelWorld restingPlayer) = true := by decide!
  have b2 : fellOutR toF32 dashKey25 (levelWorld restingPlayer) = false := by decide!
  have b3 : steadyRunR toF32 (List.replicate 5 idle25)
      (frameR toF32 dashKey25 (levelWorld restingPlayer)) = true := by decide!
  exact ⟨b1, b2, b3⟩

/-- C5 as stated fails in the arithmetic of `float`, in both directions.  At the
frame time `float(1.0 / 60)`, 12 frames after the trigger the accumulated frame
time has reached dashTime (0.2 as well as 0.2f), yet the timer holds
3 / 268435456 > 0 and the player still dashes at speed 15.  At the frame time
`float(1.0 / 25)`, 5 frames after the trigger the accumulated frame time is
still below dashTime (0.2 as well as 0.2f), yet the timer has reached 0, the
dash is over and the speed is 5.  In both runs a dash is triggered from rest
and no frame respawns the player or touches the flag. -/
theorem dash_duration_not_exact :
    (dashTriggeredR toF32 dashKey60 (levelWorld restingPlayer) = true ∧
      fellOutR toF32 dashKey60 (levelWorld restingPlayer) = false ∧
      steadyRunR toF32 (List.replicate 12 idle60)
        (frameR toF32 dashKey60 (levelWorld restingPlayer)) = true ∧
      (Player.dashTime ≤ elapsed (List.replicate 12 idle60) ∧
        dashTime32 ≤ elapsed (List.replicate 12 idle60)) ∧
      (runR toF32 (List.replicate 12 idle60)
        (frameR toF32 dashKey60 (levelWorld restingPlayer))).player.isDashing = true ∧
      (runR toF32 (List.replicate 12 idle60)
        (frameR toF32 dashKey60 (levelWorld restingPlayer))).player.speed = 15 ∧
      (runR toF32 (List.replicate 12 idle60)
        (frameR toF32 dashKey60 (levelWorld restingPlayer))).player.dashTimer
          = 3 / 268435456) ∧
    (dashTriggeredR toF32 dashKey25 (levelWorld restingPlayer) = true ∧
      fellOutR toF32 dashKey25 (levelWorld restingPlayer) = false ∧
      steadyRunR toF32 (List.replicate 5 idle25)
        (frameR toF32 dashKey25 (levelWorld restingPlayer)) = true ∧
      (elapsed (List.replicate 5 idle25) < Player.dashTime ∧
        elapsed (List.replicate 5 idle25) < dashTime32) ∧
      (runR toF32 (List.replicate 5 idle25)
        (frameR toF32 dashKey25 (levelWorld restingPlayer))).player.isDashing = false ∧
      (runR toF32 (List.replicate 5 idle25)
        (frameR toF32 dashKey25 (levelWorld restingPlayer))).player.speed = 5 ∧
      (runR toF32 (List.replicate 5 idle25)
        (frameR toF32 dashKey25 (levelWorld restingPlayer))).player.dashTimer = 0) ∧
    dt60 = toF32 (1 / 60) ∧ dt25 = toF32 (1 / 25) := by
  have s60 := dash_at_dt60_state
  have s25 := dash_at_dt25_state
  simp only [Player.dash, Prod.mk.injEq] at s60 s25
  have a4 : Player.dashTime ≤ elapsed (List.replicate 12 idle60) := by decide!
  have a5 : dashTime32 ≤ elapsed (List.replicate 12 idle60) := by decide!
  have b4 : elapsed (List.replicate 5 idle25) < Player.dashTime := by decide!
  have b5 : elapsed (List.replicate 5 idle25) < dashTime32 := by decide!
  exact ⟨⟨dash_at_dt60_steady.1, dash_at_dt60_steady.2.1, dash_at_dt60_steady.2.2, ⟨a4, a5⟩,
      s60.1, s60.2.2.2.1, s60.2.1⟩,
    ⟨dash_at_dt25_steady.1, dash_at_dt25_steady.2.1, dash_at_dt25_steady.2.2, ⟨b4, b5⟩,
      s25.1, s25.2.2.2.1, s25.2.1⟩,
    f32_constants.2.2.2.1, f32_constants.2.2.2.2⟩

end Platformer
